import Mathlib

/-!
mika: the tracker's auth gate, scrape handler and in-memory store.

A shallow embedding of `tracker/http.go`, `tracker/scrape.go`, `tracker/user.go`,
`store/memory/memory.go`, `util/conv.go` and `renderRoles` of `cmd/role.go`.

Modelling conventions

* A Go `map[K]V` is an association list `GoMap K V`; `get`, `set` and `delete` are the map
  read, the map assignment and the builtin `delete`. A `range` loop visits the entries in list
  order (Go leaves the order unspecified; nothing proved below depends on it).
* A `uint32` is a `Nat` and every addition on it is reduced modulo `2 ^ 32`.
* Code that takes a pointer and writes through it returns the updated record next to its
  result. `RoleAdd` writes the id through the `*store.Role` it is given before it runs its
  checks, and that pointer may be one the role map already holds: a call says so (`heldAt`)
  and the role in the map is then the one written. Elsewhere a record handed to the store is
  taken by value.
* The gin context is represented by the list of responses written with `ctx.Data`; a body is
  kept as the bencode value handed to the encoder and `Body.encode` gives its bytes. Log
  calls are dropped.
* The `store` and `consts` packages, `config.Tracker.Public`, the tracker level `TorrentGet`
  and `queryStringParser` are not part of the inspected sources. Their record types are
  rebuilt from the fields the inspected code reads and writes, and the functions are taken as
  parameters (`tracker.Env`).
* Functions of the standard library and of third party packages are either parameters
  (`tracker.Net`, and `ToLower` for `strings.ToLower`) or written after their documentation
  (`strconv.ParseInt`, the bencoding, the default sort of the table writer); each says so in
  its comment.
-/

namespace Mika

/-! ## Go maps -/

/-- A Go map, as the list of its entries. -/
abbrev GoMap (κ : Type) (β : Type) := List (κ × β)

namespace GoMap

variable {κ β : Type} [DecidableEq κ]

/-- The map read `v, found := m[k]`. -/
def get (m : GoMap κ β) (k : κ) : Option β :=
  (m.find? (fun e => decide (e.1 = k))).map Prod.snd

/-- The builtin `delete(m, k)`. -/
def delete (m : GoMap κ β) (k : κ) : GoMap κ β :=
  m.filter (fun e => !decide (e.1 = k))

/-- The map assignment `m[k] = v`. -/
def set (m : GoMap κ β) (k : κ) (v : β) : GoMap κ β :=
  (k, v) :: delete m k

/-- The keys of the map. -/
def keys (m : GoMap κ β) : List κ := m.map Prod.fst

/-- The values of the map, as a `range` loop meets them. -/
def values (m : GoMap κ β) : List β := m.map Prod.snd

/-- Every key occurs once: the list is a map. -/
def WF (m : GoMap κ β) : Prop := (keys m).Nodup

end GoMap

/-! ## consts -/

namespace consts

/-- The sentinel errors of package `consts` that the inspected code returns, and the
errors built with `errors.Errorf`. -/
inductive Error where
  | ErrDuplicate
  | ErrInvalidInfoHash
  | ErrUnauthorized
  | ErrInvalidUser
  | ErrInvalidRole
  | ErrInvalidClient
  | Errorf (msg : String)
  deriving DecidableEq, Repr

end consts

deriving instance DecidableEq for Except

/-! ## store: the data model -/

namespace store

/-- An info hash: the raw bytes. -/
abbrev InfoHash := List Nat

/-- The fields of `store.Torrent` read by the inspected code. -/
structure Torrent where
  InfoHash : InfoHash
  Seeders : Nat
  Leechers : Nat
  Snatches : Nat
  IsDeleted : Bool
  deriving DecidableEq, Repr

/-- The fields of `store.User` used by the inspected code. -/
structure User where
  UserID : Nat
  RoleID : Nat
  RemoteID : Nat
  Passkey : String
  IsDeleted : Bool
  DownloadEnabled : Bool
  Downloaded : Nat
  Uploaded : Nat
  Announces : Nat
  deriving DecidableEq, Repr

/-- The zero value of `store.User`, as `var user store.User` declares it. -/
def User.zero : User :=
  { UserID := 0, RoleID := 0, RemoteID := 0, Passkey := "", IsDeleted := false,
    DownloadEnabled := false, Downloaded := 0, Uploaded := 0, Announces := 0 }

/-- The fields of `store.Role` used by the inspected code (the two float multipliers are
left out). -/
structure Role where
  RoleID : Nat
  RoleName : String
  Priority : Int
  DownloadEnabled : Bool
  UploadEnabled : Bool
  deriving DecidableEq, Repr

/-- A whitelisted client: `ClientPrefix` and `ClientName`. -/
structure WhiteListClient where
  ClientPrefix : String
  ClientName : String
  deriving DecidableEq, Repr

abbrev Users := GoMap String User
abbrev Roles := GoMap Nat Role
abbrev Torrents := GoMap InfoHash Torrent
abbrev WhiteList := GoMap String WhiteListClient

end store

/-! ## store/memory: the in-memory driver -/

namespace memory

open consts store

/-- The in-memory driver. The four mutexes carry no data and are left out. -/
structure Driver where
  users : Users
  roles : Roles
  torrents : Torrents
  whitelist : WhiteList
  lastUserID : Nat
  lastRoleID : Nat
  deriving DecidableEq, Repr

/-- The constructor `NewDriver`: empty maps, counters at zero. -/
def NewDriver : Driver :=
  { users := [], roles := [], torrents := [], whitelist := [], lastUserID := 0, lastRoleID := 0 }

/-- The body of the `range d.roles` loop of `RoleAdd`: the first error it returns, if any.
`ToLower` stands for Go's `strings.ToLower`, which is a parameter of the model. -/
def RoleAdd.scan (ToLower : String → String) (role : Role) : List Role → Option Error
  | [] => none
  | r :: rest =>
    if ToLower r.RoleName = ToLower role.RoleName then
      some (Error.Errorf ("duplicate role_name: " ++ role.RoleName))
    else if r.RoleID = role.RoleID then
      some (Error.Errorf ("duplicate role_Id: " ++ toString r.RoleID))
    else RoleAdd.scan ToLower role rest

/-- The id that `RoleAdd` gives to `role`: its id on entry plus the advanced counter. -/
def RoleAdd.stamp (d : Driver) (role : Role) : Role :=
  { role with RoleID := (role.RoleID + (d.lastRoleID + 1) % 2 ^ 32) % 2 ^ 32 }

/-- The role map once `atomic.AddUint32(&role.RoleID, ...)` has run. The map holds pointers:
`heldAt = some key` says that the pointer passed to `RoleAdd` is the one the map holds under
`key`, where the role is `role`, and the write then changes the role in the map, which stays
under `key`. A pointer that the map does not hold (`heldAt = none`, or a `key` under which
the map does not hold `role`) leaves the map as it is. -/
def RoleAdd.written (d : Driver) (role : Role) (heldAt : Option Nat) : Roles :=
  match heldAt with
  | none => d.roles
  | some key =>
    if GoMap.get d.roles key = some role then
      d.roles.map (fun e => if e.1 = key then (e.1, RoleAdd.stamp d role) else e)
    else d.roles

/-- The method `Driver.RoleAdd`: the driver after the call, the role behind the pointer after
the call, and the error. The counter and the role id are advanced, the id through the
pointer, before the loop runs; the loop ranges over the map as it is after that write. -/
def RoleAdd (ToLower : String → String) (d : Driver) (role : Role) (heldAt : Option Nat) :
    Driver × Role × Option Error :=
  let last := (d.lastRoleID + 1) % 2 ^ 32
  let role1 := { role with RoleID := (role.RoleID + last) % 2 ^ 32 }
  let d1 := { d with lastRoleID := last, roles := RoleAdd.written d role heldAt }
  match RoleAdd.scan ToLower role1 (GoMap.values d1.roles) with
  | some err => (d1, role1, some err)
  | none => ({ d1 with roles := GoMap.set d1.roles role1.RoleID role1 }, role1, none)

/-- The method `Driver.RoleDelete`. -/
def RoleDelete (d : Driver) (roleID : Nat) : Driver × Option Error :=
  let conflicts := ((GoMap.values d.users).filter (fun u => decide (u.RoleID = roleID))).length
  if conflicts > 0 then
    (d, some (Error.Errorf ("Found " ++ toString conflicts ++
      " users with only a single role, cannot remove only role")))
  else ({ d with roles := GoMap.delete d.roles roleID }, none)

/-- The method `Driver.UserAdd`: the driver after the call, the caller's user after the call,
and the error. The only check made is on the user id. -/
def UserAdd (d : Driver) (usr : User) : Driver × User × Option Error :=
  let last := (d.lastUserID + 1) % 2 ^ 32
  let usr1 := { usr with UserID := (usr.UserID + last) % 2 ^ 32 }
  let d1 := { d with lastUserID := last }
  if (GoMap.values d.users).any (fun existing => decide (existing.UserID = usr1.UserID)) then
    (d1, usr1, some Error.ErrDuplicate)
  else ({ d1 with users := GoMap.set d.users usr1.Passkey usr1 }, usr1, none)

/-- The method `Driver.UserGetByPasskey`. -/
def UserGetByPasskey (d : Driver) (passkey : String) : Except Error User :=
  match GoMap.get d.users passkey with
  | none => Except.error Error.ErrUnauthorized
  | some user => Except.ok user

/-- The method `Driver.UserDelete`. -/
def UserDelete (d : Driver) (user : User) : Driver × Option Error :=
  ({ d with users := GoMap.delete d.users user.Passkey }, none)

/-- The method `Driver.TorrentGet`. -/
def TorrentGet (d : Driver) (hash : InfoHash) (deletedOk : Bool) : Except Error Torrent :=
  match GoMap.get d.torrents hash with
  | none => Except.error Error.ErrInvalidInfoHash
  | some t =>
    if t.IsDeleted && !deletedOk then Except.error Error.ErrInvalidInfoHash
    else Except.ok t

/-- The method `Driver.TorrentAdd`. -/
def TorrentAdd (d : Driver) (t : Torrent) : Driver × Option Error :=
  match GoMap.get d.torrents t.InfoHash with
  | some _ => (d, some Error.ErrDuplicate)
  | none => ({ d with torrents := GoMap.set d.torrents t.InfoHash t }, none)

/-- The method `Driver.TorrentDelete`; the flag is ignored. -/
def TorrentDelete (d : Driver) (ih : InfoHash) (_dropRow : Bool) : Driver × Option Error :=
  ({ d with torrents := GoMap.delete d.torrents ih }, none)

/-- The method `Driver.WhiteListDelete`. -/
def WhiteListDelete (d : Driver) (client : WhiteListClient) : Driver × Option Error :=
  ({ d with whitelist := GoMap.delete d.whitelist client.ClientPrefix }, none)

/-- The method `Driver.WhiteListAdd`. -/
def WhiteListAdd (d : Driver) (client : WhiteListClient) : Driver × Option Error :=
  ({ d with whitelist := GoMap.set d.whitelist client.ClientPrefix client }, none)

/-- The method `Driver.WhiteListGetAll`: the clients appended in `range` order. -/
def WhiteListGetAll (d : Driver) : List WhiteListClient × Option Error :=
  (GoMap.values d.whitelist, none)

/-- The method `Driver.UserGetByID`: the first user of the `range` loop with the id. -/
def UserGetByID (d : Driver) (userID : Nat) : Except Error User :=
  match (GoMap.values d.users).find? (fun usr => decide (usr.UserID = userID)) with
  | some usr => Except.ok usr
  | none => Except.error Error.ErrUnauthorized

/-- The method `Driver.Close`: fresh user and torrent maps. -/
def Close (d : Driver) : Driver × Option Error :=
  ({ d with users := [], torrents := [] }, none)

/-- The method `Driver.TorrentSync`: the batch is dropped. -/
def TorrentSync (d : Driver) (_batch : List Torrent) : Driver × Option Error :=
  (d, none)

/-- The method `Driver.UserSync`: the batch is dropped. -/
def UserSync (d : Driver) (_batch : List User) : Driver × Option Error :=
  (d, none)

/-- A call of `RoleAdd` or `RoleDelete`, with its argument; for `RoleAdd`, the role behind
the pointer and the key under which the map holds that pointer, if it does. -/
inductive RoleOp where
  | add (role : Role) (heldAt : Option Nat)
  | delete (roleID : Nat)
  deriving DecidableEq, Repr

/-- The driver after one role call. -/
def RoleOp.apply (ToLower : String → String) (d : Driver) : RoleOp → Driver
  | RoleOp.add role heldAt => (RoleAdd ToLower d role heldAt).1
  | RoleOp.delete roleID => (RoleDelete d roleID).1

/-- The driver after a sequence of role calls. -/
def runRoleOps (ToLower : String → String) (d : Driver) (ops : List RoleOp) : Driver :=
  ops.foldl (RoleOp.apply ToLower) d

/-- A call of one of the state changing methods of the driver, with its arguments. -/
inductive Op where
  | userAdd (usr : User)
  | userDelete (usr : User)
  | roleAdd (role : Role) (heldAt : Option Nat)
  | roleDelete (roleID : Nat)
  | torrentAdd (t : Torrent)
  | torrentDelete (ih : InfoHash) (dropRow : Bool)
  | whiteListAdd (client : WhiteListClient)
  | whiteListDelete (client : WhiteListClient)
  | close
  deriving DecidableEq, Repr

/-- The driver after one call. -/
def Op.apply (ToLower : String → String) (d : Driver) : Op → Driver
  | Op.userAdd usr => (UserAdd d usr).1
  | Op.userDelete usr => (UserDelete d usr).1
  | Op.roleAdd role heldAt => (RoleAdd ToLower d role heldAt).1
  | Op.roleDelete roleID => (RoleDelete d roleID).1
  | Op.torrentAdd t => (TorrentAdd d t).1
  | Op.torrentDelete ih dropRow => (TorrentDelete d ih dropRow).1
  | Op.whiteListAdd client => (WhiteListAdd d client).1
  | Op.whiteListDelete client => (WhiteListDelete d client).1
  | Op.close => (Close d).1

/-- The id that the call assigns, when it is a successful `UserAdd` of a user whose `UserID`
is 0 on entry. -/
def Op.assigned (d : Driver) : Op → Option Nat
  | Op.userAdd usr =>
    if usr.UserID = 0 ∧ (UserAdd d usr).2.2 = none then some (UserAdd d usr).2.1.UserID
    else none
  | _ => none

/-- The ids assigned along a sequence of calls, in call order. -/
def assignedIDs (ToLower : String → String) (d : Driver) : List Op → List Nat
  | [] => []
  | op :: ops => (Op.assigned d op).toList ++ assignedIDs ToLower (Op.apply ToLower d op) ops

/-- The driver after a sequence of calls. -/
def runOps (ToLower : String → String) (d : Driver) (ops : List Op) : Driver :=
  ops.foldl (Op.apply ToLower) d

/-- The number of `UserAdd` calls in a sequence: each advances the user id counter by one. -/
def userAdds : List Op → Nat
  | [] => 0
  | Op.userAdd _ :: ops => userAdds ops + 1
  | _ :: ops => userAdds ops

end memory

/-! ## tracker: error codes, the auth gate and the scrape handler -/

namespace tracker

open consts store

/-- The type `errCode`, an `int`. -/
abbrev errCode := Int

def msgInvalidReqType : errCode := 100
def msgMissingInfoHash : errCode := 101
def msgMissingPeerID : errCode := 102
def msgMissingPort : errCode := 103
def msgInvalidPort : errCode := 104
def msgInvalidInfoHash : errCode := 150
def msgInvalidPeerID : errCode := 151
def msgInvalidNumWant : errCode := 152
def msgBadClient : errCode := 153
def msgOk : errCode := 200
def msgInfoHashNotFound : errCode := 480
def msgInvalidAuth : errCode := 490
def msgClientRequestTooFast : errCode := 500
def msgGenericError : errCode := 900
def msgMalformedRequest : errCode := 901
def msgQueryParseFail : errCode := 902

/-- The table `responseStringMap`, in the order of the source. -/
def responseStringMap : GoMap errCode String :=
  [ (msgInvalidReqType, "Invalid request type"),
    (msgMissingInfoHash, "info_hash missing from request"),
    (msgMissingPeerID, "peer_id missing from request"),
    (msgMissingPort, "port missing from request"),
    (msgInvalidPort, "Invalid port"),
    (msgInvalidAuth, "Invalid passkey"),
    (msgInvalidInfoHash, "Invalid info hash"),
    (msgInvalidPeerID, "Peer ID invalid"),
    (msgInvalidNumWant, "num_want invalid"),
    (msgBadClient, "Client not whitelisted"),
    (msgInfoHashNotFound, "Unknown infohash"),
    (msgClientRequestTooFast, "Slow down there jimmy"),
    (msgMalformedRequest, "Malformed request"),
    (msgGenericError, "Generic error"),
    (msgQueryParseFail, "Could not parse request") ]

/-- A scalar bencode value. -/
inductive BValue where
  | int (n : Int)
  | str (s : String)
  deriving DecidableEq, Repr

/-- A `bencode.Dict` with scalar values. -/
abbrev BDict := GoMap String BValue

/-- The bencode value that a response body encodes. -/
inductive Body where
  | dict (d : BDict)
  | files (d : GoMap String BDict)
  deriving DecidableEq, Repr

/-- One call of `ctx.Data(status, contentType, body)`. -/
structure Response where
  status : Int
  contentType : String
  body : Body
  deriving DecidableEq, Repr

/-- The constant `gin.MIMEPlain`. -/
def MIMEPlain : String := "text/plain"

/-- The constant `http.StatusOK`. -/
def StatusOK : Int := 200

/-- The function `responseError`: the dictionary with the single key `failure reason`. -/
def responseError (message : String) : Body :=
  Body.dict [("failure reason", BValue.str message)]

/-- The function `oops`: the response it writes. -/
def oops (code : errCode) : Response :=
  let msg :=
    match GoMap.get responseStringMap code with
    | some m => m
    | none => (GoMap.get responseStringMap msgGenericError).getD ""
  { status := code, contentType := MIMEPlain, body := responseError msg }

/-- The bencoding of a byte string: its length in bytes, a colon, the bytes. -/
def bencodeString (s : String) : String :=
  toString s.utf8ByteSize ++ ":" ++ s

/-- The bencoding of a scalar: `i<n>e` for an integer. -/
def BValue.encode : BValue → String
  | BValue.int n => "i" ++ toString n ++ "e"
  | BValue.str s => bencodeString s

/-- The entries of a dictionary in the order of their keys, as the encoder emits them. Keys
are compared character by character, which is also their order as UTF-8 bytes. -/
def sortedEntries {β : Type} (d : GoMap String β) : List (String × β) :=
  d.insertionSort (fun a b => a.1.data ≤ b.1.data)

/-- The bencoding of a dictionary of scalars: `d`, each key and value in key order, `e`. -/
def BDict.encode (d : BDict) : String :=
  "d" ++ String.join ((sortedEntries d).map (fun e => bencodeString e.1 ++ e.2.encode)) ++ "e"

/-- The bytes of a response body, as `bencode.NewEncoder(&buf).Encode` produces them. -/
def Body.encode : Body → String
  | Body.dict d => BDict.encode d
  | Body.files d =>
    "d" ++ String.join ((sortedEntries d).map
      (fun e => bencodeString e.1 ++ BDict.encode e.2)) ++ "e"

/-- The tracker's `UserGetByPasskey`, a read of the package level cache `users`. -/
def UserGetByPasskey (users : Users) (passkey : String) : Except Error User :=
  match GoMap.get users passkey with
  | none => Except.error Error.ErrInvalidUser
  | some u => Except.ok u

/-- What the inspected code takes from outside: the configuration flag, the user cache and
the functions of packages that are not in the inspected sources. -/
structure Env where
  /-- The flag `config.Tracker.Public`. -/
  Public : Bool
  /-- The package level cache `users`. -/
  users : Users
  /-- The method `store.User.Valid`. -/
  Valid : User → Bool
  /-- The function `queryStringParser`; `none` is a parse error. -/
  queryStringParser : String → Option (List String)
  /-- The function `store.InfoHashFromString`; `none` is a decode error. -/
  InfoHashFromString : String → Option InfoHash
  /-- The method `store.InfoHash.String`. -/
  InfoHashString : InfoHash → String
  /-- The tracker level `TorrentGet`. -/
  TorrentGet : InfoHash → Bool → Except Error Torrent

/-- What a call of `preFlightChecks` leaves behind. -/
structure PreFlight where
  /-- The returned boolean. -/
  ok : Bool
  /-- The record the caller passed by pointer, after the call. -/
  usr : User
  /-- The responses written to the context. -/
  written : List Response
  /-- The passkeys looked up in the user cache. -/
  lookups : List String
  deriving DecidableEq, Repr

/-- The function `preFlightChecks`. In the private branch `usr = foundUser` rebinds the
parameter, a local pointer: the caller's record is not written, and `usr.Valid()` is the
validity of the user that was found. -/
def preFlightChecks (env : Env) (usr : User) (pk : String) : PreFlight :=
  if env.Public then
    { ok := true, usr := { usr with UserID := 1 }, written := [], lookups := [] }
  else if pk = "" then
    { ok := false, usr := usr, written := [oops msgInvalidAuth], lookups := [] }
  else
    match UserGetByPasskey env.users pk with
    | Except.error _ =>
      { ok := false, usr := usr, written := [oops msgInvalidAuth], lookups := [pk] }
    | Except.ok foundUser =>
      { ok := env.Valid foundUser, usr := usr, written := [], lookups := [pk] }

/-- The value stored for one torrent in the scrape response. -/
def scrapeEntry (torrent : Torrent) : BDict :=
  [ ("complete", BValue.int torrent.Seeders),
    ("downloaded", BValue.int torrent.Snatches),
    ("incomplete", BValue.int torrent.Leechers) ]

/-- One turn of the `range q.InfoHashes` loop of `scrape`. -/
def scrapeStep (env : Env) (resp : GoMap String BDict) (ihStr : String) : GoMap String BDict :=
  match env.InfoHashFromString ihStr with
  | none => resp
  | some ih =>
    match env.TorrentGet ih false with
    | Except.error _ => resp
    | Except.ok torrent => GoMap.set resp (env.InfoHashString ih) (scrapeEntry torrent)

/-- The handler `scrape`: the responses written for the request with the given `passkey`
path parameter and raw query string. The encoder does not fail on a dictionary of
dictionaries of integers, so the response is always written. -/
def scrape (env : Env) (passkey : String) (rawQuery : String) : List Response :=
  let pre := preFlightChecks env User.zero passkey
  if !pre.ok then pre.written
  else
    match env.queryStringParser rawQuery with
    | none => pre.written ++ [oops msgMalformedRequest]
    | some infoHashes =>
      if infoHashes.length = 0 then pre.written ++ [oops msgMalformedRequest]
      else
        pre.written ++
          [{ status := StatusOK, contentType := MIMEPlain,
             body := Body.files (infoHashes.foldl (scrapeStep env) []) }]

/-- The requested string decodes and its hash resolves with `TorrentGet(h, false)`: the key
and the torrent that the loop of `scrape` stores for it. -/
def scrapeResolves (env : Env) (ihStr : String) : Option (String × Torrent) :=
  match env.InfoHashFromString ihStr with
  | none => none
  | some ih =>
    match env.TorrentGet ih false with
    | Except.error _ => none
    | Except.ok torrent => some (env.InfoHashString ih, torrent)

/-! ### The IP resolver -/

/-- A `net.IP`, a byte slice; the nil slice and the empty slice are both `[]`, the value that
`net.ParseIP` returns for a string that is not an address. -/
abbrev IP := List Nat

/-- The keys of `query.Params` that `getIP` reads, and a case for every other key. -/
inductive announceParam where
  | paramIP
  | paramIPv4
  | paramIPv6
  | paramOther (name : String)
  deriving DecidableEq, Repr

/-- The fields of `query` used by the inspected code. -/
structure query where
  InfoHashes : List String
  Params : GoMap announceParam String
  deriving DecidableEq, Repr

/-- What `getIP` reads of the gin context: the request headers and `Request.RemoteAddr`. -/
structure Request where
  Header : GoMap String String
  RemoteAddr : String
  deriving DecidableEq, Repr

/-- The method `Header.Get`: the value of the header, the empty string when it is absent. -/
def Request.HeaderGet (c : Request) (header : String) : String :=
  (GoMap.get c.Header header).getD ""

/-- The two functions of the standard package `net` that `getIP` calls. -/
structure Net where
  /-- The function `net.ParseIP`; `[]` when the string is not an address. -/
  ParseIP : String → IP
  /-- The host returned by `net.SplitHostPort`; the empty string on an error. -/
  SplitHostPort : String → String

/-- The loop of `getIP` over `paramIP`, `paramIPv4`, `paramIPv6` with their indices: the
return of the first parameter found, if any. -/
def getIP.clientIP (net : Net) (q : query) :
    List (Nat × announceParam) → Option (IP × Bool × Option Error)
  | [] => none
  | (i, k) :: rest =>
    match GoMap.get q.Params k with
    | some ipStr =>
      if i = 0 then some (net.ParseIP ipStr, false, none)
      else if i = 1 then some (net.ParseIP ipStr, false, none)
      else if i = 2 then some (net.ParseIP ipStr, true, none)
      else getIP.clientIP net q rest
    | none => getIP.clientIP net q rest

/-- The function `strings.Count(s, ":")`. -/
def countColons (s : String) : Nat := (s.data.filter (fun ch => decide (ch = ':'))).length

/-- The loop of `getIP` over the proxy headers: the return of the first non-empty one. -/
def getIP.headerIP (net : Net) (c : Request) : List String → Option (IP × Bool × Option Error)
  | [] => none
  | header :: rest =>
    if c.HeaderGet header ≠ "" then
      some (net.ParseIP (c.HeaderGet header), decide (countColons (c.HeaderGet header) > 1), none)
    else getIP.headerIP net c rest

/-- The loop of `getIP` over the characters of the remote host, and the return after it. -/
def getIP.scan (net : Net) (httpAddr : String) : List Char → IP × Bool × Option Error
  | [] => ([], false, some Error.ErrInvalidClient)
  | ch :: rest =>
    if ch = '.' then (net.ParseIP httpAddr, false, none)
    else if ch = ':' then (net.ParseIP httpAddr, true, none)
    else getIP.scan net httpAddr rest

/-- The function `getIP`: the address, the IPv6 flag and the error. -/
def getIP (net : Net) (q : query) (allowClientIP : Bool) (c : Request) :
    IP × Bool × Option Error :=
  match (if allowClientIP then
      getIP.clientIP net q
        [(0, announceParam.paramIP), (1, announceParam.paramIPv4), (2, announceParam.paramIPv6)]
    else none) with
  | some r => r
  | none =>
    match getIP.headerIP net c ["X-Real-IP", "X-Forwarded-For"] with
    | some r => r
    | none => getIP.scan net (net.SplitHostPort c.RemoteAddr) (net.SplitHostPort c.RemoteAddr).data

/-- The first-match-wins reference of the resolution order, in its own words: the address,
and the IPv6 flag where the reference fixes it. (1) with overrides allowed, the first present
of `ip`, `ipv4`, `ipv6`, flagged exactly when it is `ipv6`; (2) `X-Real-IP` when non-empty,
else `X-Forwarded-For` when non-empty; (3) the host part of the remote address. -/
def getIPReference (net : Net) (q : query) (allowClientIP : Bool) (c : Request) :
    IP × Option Bool :=
  if allowClientIP = true ∧ (GoMap.get q.Params announceParam.paramIP).isSome then
    (net.ParseIP ((GoMap.get q.Params announceParam.paramIP).getD ""), some false)
  else if allowClientIP = true ∧ (GoMap.get q.Params announceParam.paramIPv4).isSome then
    (net.ParseIP ((GoMap.get q.Params announceParam.paramIPv4).getD ""), some false)
  else if allowClientIP = true ∧ (GoMap.get q.Params announceParam.paramIPv6).isSome then
    (net.ParseIP ((GoMap.get q.Params announceParam.paramIPv6).getD ""), some true)
  else if c.HeaderGet "X-Real-IP" ≠ "" then (net.ParseIP (c.HeaderGet "X-Real-IP"), none)
  else if c.HeaderGet "X-Forwarded-For" ≠ "" then
    (net.ParseIP (c.HeaderGet "X-Forwarded-For"), none)
  else (net.ParseIP (net.SplitHostPort c.RemoteAddr), none)

/-- The errCode constants declared by the tracker. -/
def declaredCodes : List errCode :=
  [ msgInvalidReqType, msgMissingInfoHash, msgMissingPeerID, msgMissingPort, msgInvalidPort,
    msgInvalidInfoHash, msgInvalidPeerID, msgInvalidNumWant, msgBadClient, msgOk,
    msgInfoHashNotFound, msgInvalidAuth, msgClientRequestTooFast, msgGenericError,
    msgMalformedRequest, msgQueryParseFail ]

end tracker

/-! ## strconv -/

namespace strconv

/-- The value of a string of decimal digits. -/
def digitsValue (digits : List Char) : Nat :=
  digits.foldl (fun acc ch => 10 * acc + (ch.toNat - 48)) 0

/-- The function `strconv.ParseInt(s, 10, bitSize)` of the standard library: an optional sign
followed by one or more decimal digits, whose value lies in the signed range of `bitSize`
bits; `none` is an error, of syntax or of range. -/
def ParseInt (s : String) (bitSize : Nat) : Option Int :=
  let signed : Bool × List Char :=
    match s.data with
    | [] => (false, [])
    | ch :: rest =>
      if ch = '+' then (false, rest) else if ch = '-' then (true, rest) else (false, ch :: rest)
  if signed.2 = [] ∨ signed.2.all Char.isDigit = false then none
  else if signed.1 then
    (if digitsValue signed.2 ≤ 2 ^ (bitSize - 1) then some (- (digitsValue signed.2 : Int))
     else none)
  else
    (if digitsValue signed.2 < 2 ^ (bitSize - 1) then some (digitsValue signed.2 : Int)
     else none)

end strconv

/-! ## util: conversions -/

namespace util

open consts

/-- The conversion `uint16(v)`: the low 16 bits. -/
def toUint16 (v : Int) : Nat := (v % 2 ^ 16).toNat

/-- The conversion `uint64(v)`: the low 64 bits. -/
def toUint64 (v : Int) : Nat := (v % 2 ^ 64).toNat

/-- The result of an `int64` multiplication: the product reduced to the signed 64 bit range. -/
def wrapInt64 (x : Int) : Int := (x + 2 ^ 63) % 2 ^ 64 - 2 ^ 63

/-- The function `StringToUInt16`: it parses with `strconv.ParseInt(s, 10, 32)`. -/
def StringToUInt16 (s : String) (dflt : Nat) : Nat :=
  match strconv.ParseInt s 32 with
  | none => dflt
  | some v => toUint16 v

/-- The function `StringToUInt64`: it parses with `strconv.ParseInt(s, 10, 64)`. -/
def StringToUInt64 (s : String) (dflt : Nat) : Nat :=
  match strconv.ParseInt s 64 with
  | none => dflt
  | some v => toUint64 v

/-- The error `errInvalidDuration`. -/
def errInvalidDuration : Error := Error.Errorf "Invalid duration"

/-- The match of `reDuration`, the expression `^(\d+)([smhdwMy])$`, against the whole string:
the longest run of leading ASCII digits, which must not be empty, then exactly one more
character, which must be a unit letter. The result is the two groups. -/
def reDuration.FindStringSubmatch (s : String) : Option (String × String) :=
  match s.data.takeWhile Char.isDigit, s.data.dropWhile Char.isDigit with
  | [], _ => none
  | digits, [u] =>
    if u = 's' ∨ u = 'm' ∨ u = 'h' ∨ u = 'd' ∨ u = 'w' ∨ u = 'M' ∨ u = 'y' then
      some (String.mk digits, String.mk [u])
    else none
  | _, _ => none

/-- The constants `time.Second`, `time.Minute` and `time.Hour`, in nanoseconds, and `day`. -/
def Second : Int := 1000000000
def Minute : Int := 60 * Second
def Hour : Int := 60 * Minute
def day : Int := Hour * 24

/-- The function `ParseDuration`: the duration in nanoseconds and the error. -/
def ParseDuration (s : String) : Int × Option Error :=
  if s = "0" then (0, none)
  else
    match reDuration.FindStringSubmatch s with
    | none => (0, some errInvalidDuration)
    | some m =>
      match strconv.ParseInt m.1 64 with
      | none => (0, some errInvalidDuration)
      | some value =>
        if m.2 = "s" then (wrapInt64 (Second * value), none)
        else if m.2 = "m" then (wrapInt64 (Minute * value), none)
        else if m.2 = "h" then (wrapInt64 (Hour * value), none)
        else if m.2 = "d" then (wrapInt64 (day * value), none)
        else if m.2 = "w" then (wrapInt64 (day * 7 * value), none)
        else if m.2 = "M" then (wrapInt64 (day * 31 * value), none)
        else if m.2 = "y" then (wrapInt64 (day * 365 * value), none)
        else (0, some errInvalidDuration)

/-- The unit letters with their length in nanoseconds, as the description of `ParseDuration`
lists them: s = 1 second, m = 60 s, h = 3600 s, d = 24 h, w = 7 d, M = 31 d, y = 365 d. -/
def unitNanos (u : Char) : Option Int :=
  if u = 's' then some 1000000000
  else if u = 'm' then some (60 * 1000000000)
  else if u = 'h' then some (3600 * 1000000000)
  else if u = 'd' then some (24 * 3600 * 1000000000)
  else if u = 'w' then some (7 * 24 * 3600 * 1000000000)
  else if u = 'M' then some (31 * 24 * 3600 * 1000000000)
  else if u = 'y' then some (365 * 24 * 3600 * 1000000000)
  else none

/-- The strings that the description of `ParseDuration` accepts: "0", or one or more ASCII
decimal digits whose value fits in a signed 64 bit integer, followed by one unit letter. -/
def DurationAccepted (s : String) : Prop :=
  s = "0" ∨
  ∃ (digits : List Char) (u : Char) (nanos : Int),
    s = String.mk (digits ++ [u]) ∧ digits ≠ [] ∧ (∀ ch ∈ digits, ch.isDigit = true) ∧
    strconv.digitsValue digits < 2 ^ 63 ∧ unitNanos u = some nanos

end util

/-! ## cmd: the role listing -/

namespace cmd

open store

/-- A row of the table of `renderRoles`, as text: the columns `role_id`, `name`, `priority`
and `dl_enabled` (the two float columns `xup` and `xdn` are left out). -/
structure Row where
  role_id : String
  name : String
  priority : String
  dl_enabled : String
  deriving DecidableEq, Repr

/-- The row appended for a role, each cell in the text form the table writer gives it. -/
def roleRow (role : Role) : Row :=
  { role_id := toString role.RoleID, name := role.RoleName, priority := toString role.Priority,
    dl_enabled := toString role.DownloadEnabled }

/-- The sort that `t.SortBy` with the column name "priority" and no `Mode` asks of the table
writer: the zero `Mode` is `table.Asc`, which compares the text of the cells alphabetically.
Rows with equal cells are kept in their order here; the writer leaves their order open. -/
def sortByPriorityColumn (rows : List Row) : List Row :=
  rows.insertionSort (fun a b => a.priority.data ≤ b.priority.data)

/-- The function `renderRoles`: the rows of the table in the order they are rendered. -/
def renderRoles (roles : List Role) : List Row :=
  sortByPriorityColumn (roles.map roleRow)

end cmd

/-! ## Concrete states and requests used in the examples -/

namespace demo

open consts store

/-- A user whose account is deleted. -/
def deletedUser : User :=
  { UserID := 7, RoleID := 1, RemoteID := 0, Passkey := "k", IsDeleted := true,
    DownloadEnabled := true, Downloaded := 0, Uploaded := 0, Announces := 0 }

/-- A user in good standing. -/
def goodUser : User :=
  { UserID := 8, RoleID := 1, RemoteID := 0, Passkey := "good", IsDeleted := false,
    DownloadEnabled := true, Downloaded := 1000, Uploaded := 2000, Announces := 500 }

/-- Another user that carries the passkey of `goodUser`. -/
def rivalUser : User :=
  { UserID := 0, RoleID := 2, RemoteID := 0, Passkey := "good", IsDeleted := false,
    DownloadEnabled := true, Downloaded := 0, Uploaded := 0, Announces := 0 }

/-- A user without a passkey. -/
def blankUser : User :=
  { UserID := 0, RoleID := 1, RemoteID := 0, Passkey := "", IsDeleted := false,
    DownloadEnabled := true, Downloaded := 0, Uploaded := 0, Announces := 0 }

/-- Torrent A of the scrape scenario: 3 seeders, 1 leecher, no snatch. -/
def torrentA : Torrent :=
  { InfoHash := [65], Seeders := 3, Leechers := 1, Snatches := 0, IsDeleted := false }

/-- Torrent B of the scrape scenario: 5 snatches. -/
def torrentB : Torrent :=
  { InfoHash := [66], Seeders := 0, Leechers := 0, Snatches := 5, IsDeleted := false }

/-- A torrent that is marked deleted. -/
def torrentD : Torrent :=
  { InfoHash := [68], Seeders := 9, Leechers := 9, Snatches := 9, IsDeleted := true }

/-- A driver that holds the torrents A, B and the deleted D, and the user `goodUser` with
role 1. -/
def driver : memory.Driver :=
  { users := [("good", goodUser)],
    roles := [(1, { RoleID := 1, RoleName := "Member", Priority := 15,
                    DownloadEnabled := true, UploadEnabled := true })],
    torrents := [([65], torrentA), ([66], torrentB), ([68], torrentD)],
    whitelist := [], lastUserID := 8, lastRoleID := 1 }

/-- An environment for the tracker: validity means neither deleted nor disabled, the query
string is a comma separated list of info hashes, an info hash string decodes when it is one
character long, and torrents are looked up in `driver`. -/
def env (isPublic : Bool) : tracker.Env :=
  { Public := isPublic,
    users := [("k", deletedUser), ("good", goodUser)],
    Valid := fun u => !u.IsDeleted && u.DownloadEnabled,
    queryStringParser := fun raw =>
      if raw = "?" then none
      else if raw = "" then some []
      else some ((raw.data.filter (fun c => !decide (c = ','))).map (fun c => String.mk [c])),
    InfoHashFromString := fun s =>
      match s.data with
      | [c] => if c = '!' then none else some [c.toNat]
      | _ => none,
    InfoHashString := fun ih => String.mk (ih.map Char.ofNat),
    TorrentGet := memory.TorrentGet driver }

/-- Lower-casing of the letters A to Z, which is what `strings.ToLower` does on the ASCII
names of the examples. -/
def ToLower (s : String) : String := String.mk (s.data.map Char.toLower)

/-- The role `guest`, which arrives with the id 2 already set. -/
def roleGuest : Role :=
  { RoleID := 2, RoleName := "guest", Priority := 20, DownloadEnabled := true,
    UploadEnabled := true }

/-- The client uTorrent. -/
def clientUT : WhiteListClient := { ClientPrefix := "UT", ClientName := "uTorrent" }

/-- The client qBittorrent. -/
def clientQT : WhiteListClient := { ClientPrefix := "qT", ClientName := "QBittorrent" }

/-- The client qBittorrent under a new display name. -/
def clientQT4 : WhiteListClient := { ClientPrefix := "qT", ClientName := "qBittorrent 4" }

/-- The calls that whitelist qBittorrent and then uTorrent. -/
def whitelistCalls : List memory.Op :=
  [memory.Op.whiteListAdd clientQT, memory.Op.whiteListAdd clientUT]

/-- A role that arrives with the id 1 already set. -/
def rolePreset : Role :=
  { RoleID := 1, RoleName := "Moderator", Priority := 5, DownloadEnabled := true,
    UploadEnabled := true }

/-- The role `Member`. -/
def roleMember : Role :=
  { RoleID := 0, RoleName := "Member", Priority := 15, DownloadEnabled := true,
    UploadEnabled := true }

/-- A torrent that is not stored in `driver`. -/
def torrentC : Torrent :=
  { InfoHash := [67], Seeders := 0, Leechers := 2, Snatches := 0, IsDeleted := false }

/-- A stand-in for the package `net`: four addresses parse, a string without a dot or colon
is never an address, and the host is what precedes the last colon. -/
def net : tracker.Net :=
  { ParseIP := fun s =>
      if s.data.any (fun ch => ch = '.' || ch = ':') then
        (GoMap.get [("10.0.0.1", [10, 0, 0, 1]), ("10.0.0.2", [10, 0, 0, 2]),
                    ("10.0.0.3", [10, 0, 0, 3]),
                    ("::1", [0, 0, 0, 0, 0, 0, 0, 0, 0, 0, 0, 0, 0, 0, 0, 1])] s).getD []
      else [],
    SplitHostPort := fun s =>
      String.mk ((s.data.reverse.dropWhile (fun ch => ch != ':')).drop 1).reverse }

/-- A request from 10.0.0.3 that carries the header `X-Real-IP: 10.0.0.2`. -/
def proxied : tracker.Request :=
  { Header := [("X-Real-IP", "10.0.0.2")], RemoteAddr := "10.0.0.3:51413" }

/-- A request from 10.0.0.3 without proxy headers. -/
def direct : tracker.Request :=
  { Header := [], RemoteAddr := "10.0.0.3:51413" }

/-- A query with `ip=10.0.0.1`. -/
def queryIP : tracker.query :=
  { InfoHashes := [], Params := [(tracker.announceParam.paramIP, "10.0.0.1")] }

/-- A query with `ip=bogus`. -/
def queryBogus : tracker.query :=
  { InfoHashes := [], Params := [(tracker.announceParam.paramIP, "bogus")] }

/-- A query without address parameters. -/
def queryPlain : tracker.query :=
  { InfoHashes := [], Params := [] }

/-- The four roles of `TestStore`: Admin 1, Moderator 5, Member 15, Master 10. -/
def testRoles : List Role :=
  [ { RoleID := 1, RoleName := "Admin", Priority := 1, DownloadEnabled := true,
      UploadEnabled := true },
    { RoleID := 2, RoleName := "Moderator", Priority := 5, DownloadEnabled := true,
      UploadEnabled := true },
    { RoleID := 3, RoleName := "Member", Priority := 15, DownloadEnabled := true,
      UploadEnabled := true },
    { RoleID := 4, RoleName := "Master", Priority := 10, DownloadEnabled := true,
      UploadEnabled := true } ]

/-- The three roles of the listing scenario: Admin 1, Member 15, Master 10. -/
def scenarioRoles : List Role :=
  [ { RoleID := 1, RoleName := "Admin", Priority := 1, DownloadEnabled := true,
      UploadEnabled := true },
    { RoleID := 2, RoleName := "Member", Priority := 15, DownloadEnabled := true,
      UploadEnabled := true },
    { RoleID := 3, RoleName := "Master", Priority := 10, DownloadEnabled := true,
      UploadEnabled := true } ]

/-- The role `Admin`. -/
def roleAdmin : Role :=
  { RoleID := 0, RoleName := "Admin", Priority := 1, DownloadEnabled := true,
    UploadEnabled := true }

/-- The role `admin`, in lower case. -/
def roleAdminLower : Role :=
  { RoleID := 0, RoleName := "admin", Priority := 2, DownloadEnabled := true,
    UploadEnabled := true }

/-- The calls `RoleAdd(m)`, `RoleAdd(m)`, `RoleDelete(2)`, `RoleAdd(a)`: the pointer `m` to
the role `Moderator`, which arrives with the id 1, is stored under the id 2 and then passed
again; the role is deleted and `Admin` is added. -/
def presetTwice : List memory.RoleOp :=
  [memory.RoleOp.add rolePreset none, memory.RoleOp.add { rolePreset with RoleID := 2 } (some 2),
   memory.RoleOp.delete 2, memory.RoleOp.add roleAdmin none]

/-- The calls `RoleAdd(g)`, `RoleAdd(g)` with one pointer `g` to the role `guest`: the first
call stores `g` under the id 3, the second is given the pointer that the map now holds. -/
def guestTwice : List memory.RoleOp :=
  [memory.RoleOp.add roleGuest none, memory.RoleOp.add { roleGuest with RoleID := 3 } (some 3)]

end demo

/-! ## Lemmas on Go maps -/

namespace GoMap

variable {κ β : Type} [DecidableEq κ]

theorem get_cons (e : κ × β) (m : GoMap κ β) (k : κ) :
    get (e :: m) k = if e.1 = k then some e.2 else get m k := by
  unfold get
  by_cases h : e.1 = k <;> simp [List.find?, h]

theorem get_delete_of_ne (m : GoMap κ β) {k k2 : κ} (h : k2 ≠ k) :
    get (delete m k) k2 = get m k2 := by
  induction m with
  | nil => rfl
  | cons e m ih =>
    by_cases hk : e.1 = k
    · have hd : delete (e :: m) k = delete m k := by simp [delete, hk]
      have hne : e.1 ≠ k2 := fun h2 => h (h2.symm.trans hk)
      rw [hd, ih, get_cons, if_neg hne]
    · have hd : delete (e :: m) k = e :: delete m k := by simp [delete, hk]
      rw [hd, get_cons, get_cons, ih]

theorem get_set_self (m : GoMap κ β) (k : κ) (v : β) : get (set m k v) k = some v := by
  simp [set, get_cons]

theorem get_set_of_ne (m : GoMap κ β) {k k2 : κ} (v : β) (h : k2 ≠ k) :
    get (set m k v) k2 = get m k2 := by
  have hne : k ≠ k2 := fun h2 => h h2.symm
  simp [set, get_cons, hne, get_delete_of_ne m h]

theorem delete_of_not_mem (m : GoMap κ β) {k : κ} (h : k ∉ keys m) : delete m k = m := by
  unfold delete
  rw [List.filter_eq_self]
  intro e he
  have hne : e.1 ≠ k := fun h2 => h (h2 ▸ List.mem_map_of_mem Prod.fst he)
  simp [hne]

theorem set_of_not_mem (m : GoMap κ β) {k : κ} (v : β) (h : k ∉ keys m) :
    set m k v = (k, v) :: m := by
  simp [set, delete_of_not_mem m h]

theorem get_eq_none_of_not_mem (m : GoMap κ β) {k : κ} (h : k ∉ keys m) : get m k = none := by
  induction m with
  | nil => rfl
  | cons e m ih =>
    have h1 : e.1 ≠ k := fun h2 => h (by simp [keys, h2.symm])
    have h2 : k ∉ keys m := fun h3 => h (by simp [keys] at h3 ⊢; exact Or.inr h3)
    rw [get_cons, if_neg h1, ih h2]

end GoMap

/-! ## The auth gate -/

namespace tracker

open consts store

theorem preFlightChecks_written_of_ok (env : Env) (usr : User) (pk : String)
    (h : (preFlightChecks env usr pk).ok = true) : (preFlightChecks env usr pk).written = [] := by
  unfold preFlightChecks at h ⊢
  by_cases hpub : env.Public = true
  · simp [hpub]
  · by_cases hpk : pk = ""
    · simp [hpub, hpk] at h
    · cases hu : UserGetByPasskey env.users pk with
      | error e => simp [hpub, hpk, hu] at h
      | ok u => simp [hpub, hpk, hu]

theorem preFlightChecks_private_empty (env : Env) (usr : User) (hpriv : env.Public = false) :
    preFlightChecks env usr "" =
      { ok := false, usr := usr, written := [oops msgInvalidAuth], lookups := [] } := by
  simp [preFlightChecks, hpriv]

theorem preFlightChecks_private_unknown (env : Env) (usr : User) (pk : String)
    (hpriv : env.Public = false) (hpk : pk ≠ "") (hnone : GoMap.get env.users pk = none) :
    preFlightChecks env usr pk =
      { ok := false, usr := usr, written := [oops msgInvalidAuth], lookups := [pk] } := by
  simp [preFlightChecks, UserGetByPasskey, hpriv, hpk, hnone]

theorem preFlightChecks_private_found (env : Env) (usr : User) (pk : String) (u : User)
    (hpriv : env.Public = false) (hpk : pk ≠ "") (hfound : GoMap.get env.users pk = some u) :
    preFlightChecks env usr pk =
      { ok := env.Valid u, usr := usr, written := [], lookups := [pk] } := by
  simp [preFlightChecks, UserGetByPasskey, hpriv, hpk, hfound]

/-- C1 (code defect): in private mode a passkey that resolves to a user that is not valid makes
`preFlightChecks` return false without writing any response, whereas the empty passkey and an
unknown passkey get the invalid-auth response (status 490, failure reason "Invalid passkey").
The three failures are therefore not answered alike. -/
theorem preFlightChecks_invalid_user_silent :
    (demo.env false).Public = false ∧
    UserGetByPasskey (demo.env false).users "k" = Except.ok demo.deletedUser ∧
    (demo.env false).Valid demo.deletedUser = false ∧
    (preFlightChecks (demo.env false) User.zero "k").ok = false ∧
    (preFlightChecks (demo.env false) User.zero "k").written = [] ∧
    (preFlightChecks (demo.env false) User.zero "").ok = false ∧
    (preFlightChecks (demo.env false) User.zero "").written =
      [{ status := 490, contentType := "text/plain",
         body := Body.dict [("failure reason", BValue.str "Invalid passkey")] }] ∧
    (preFlightChecks (demo.env false) User.zero "nobody").ok = false ∧
    (preFlightChecks (demo.env false) User.zero "nobody").written =
      [{ status := 490, contentType := "text/plain",
         body := Body.dict [("failure reason", BValue.str "Invalid passkey")] }] ∧
    scrape (demo.env false) "k" "A" = [] := by
  decide

/-- C7: in public mode, for every passkey, every caller record and every state of the user
cache, `preFlightChecks` returns true, writes no response, looks up no passkey and sets the
caller's `UserID` to the sentinel 1, leaving the other fields as they were. -/
theorem preFlightChecks_public (env : Env) (usr : User) (pk : String)
    (hpub : env.Public = true) :
    preFlightChecks env usr pk =
      { ok := true, usr := { usr with UserID := 1 }, written := [], lookups := [] } ∧
    (preFlightChecks env usr pk).usr.UserID = 1 := by
  simp [preFlightChecks, hpub]

theorem preFlightChecks_public_witness :
    (demo.env true).Public = true ∧
    (preFlightChecks (demo.env true) User.zero "" =
      { ok := true, usr := { User.zero with UserID := 1 }, written := [], lookups := [] } ∧
     (preFlightChecks (demo.env true) User.zero "").usr.UserID = 1) :=
  ⟨rfl, preFlightChecks_public (demo.env true) User.zero "" rfl⟩

/-- C8 (code defect): in private mode, with the non-empty passkey of a valid cached user U,
`preFlightChecks` returns true and writes nothing, but the record the handler passed in is
left as it was: its `UserID` and passkey are still the zero values, not those of U. -/
theorem preFlightChecks_leaves_caller_record :
    (demo.env false).Public = false ∧
    UserGetByPasskey (demo.env false).users "good" = Except.ok demo.goodUser ∧
    (demo.env false).Valid demo.goodUser = true ∧
    (preFlightChecks (demo.env false) User.zero "good").ok = true ∧
    (preFlightChecks (demo.env false) User.zero "good").written = [] ∧
    (preFlightChecks (demo.env false) User.zero "good").usr = User.zero ∧
    (preFlightChecks (demo.env false) User.zero "good").usr.UserID = 0 ∧
    (preFlightChecks (demo.env false) User.zero "good").usr.Passkey = "" ∧
    demo.goodUser.UserID = 8 ∧ demo.goodUser.Passkey = "good" := by
  decide

end tracker

/-! ## The in-memory driver -/

namespace memory

open consts store

/-- C2: when at least one stored user has `RoleID = roleID`, `RoleDelete` returns an error and
the role set (indeed the whole driver) is the same after the call. -/
theorem RoleDelete_referenced (d : Driver) (roleID : Nat)
    (h : ∃ u ∈ GoMap.values d.users, u.RoleID = roleID) :
    (∃ err, (RoleDelete d roleID).2 = some err) ∧
    (RoleDelete d roleID).1.roles = d.roles ∧
    (RoleDelete d roleID).1 = d := by
  obtain ⟨u, hu, hr⟩ := h
  have hmem : u ∈ (GoMap.values d.users).filter (fun u => decide (u.RoleID = roleID)) := by
    simp [List.mem_filter, hu, hr]
  have hpos : ((GoMap.values d.users).filter (fun u => decide (u.RoleID = roleID))).length > 0 :=
    List.length_pos_of_mem hmem
  have h0 : RoleDelete d roleID =
      (d, some (Error.Errorf ("Found " ++
        toString ((GoMap.values d.users).filter (fun u => decide (u.RoleID = roleID))).length ++
        " users with only a single role, cannot remove only role"))) := if_pos hpos
  rw [h0]
  exact ⟨⟨_, rfl⟩, rfl, rfl⟩

theorem RoleDelete_referenced_witness :
    (∃ u ∈ GoMap.values demo.driver.users, u.RoleID = 1) ∧
    ((∃ err, (RoleDelete demo.driver 1).2 = some err) ∧
     (RoleDelete demo.driver 1).1.roles = demo.driver.roles ∧
     (RoleDelete demo.driver 1).1 = demo.driver) :=
  ⟨by decide, RoleDelete_referenced demo.driver 1 (by decide)⟩

theorem RoleAdd_scan_none (ToLower : String → String) (role : Role) (rs : List Role)
    (h : RoleAdd.scan ToLower role rs = none) :
    ∀ r ∈ rs, r.RoleID ≠ role.RoleID := by
  induction rs with
  | nil => intro r hr; cases hr
  | cons a rs ih =>
    unfold RoleAdd.scan at h
    by_cases h1 : ToLower a.RoleName = ToLower role.RoleName
    · simp [h1] at h
    · by_cases h2 : a.RoleID = role.RoleID
      · simp [h1, h2] at h
      · simp only [h1, h2, if_false] at h
        intro r hr
        rcases List.mem_cons.mp hr with rfl | hr
        · exact h2
        · exact ih h r hr

theorem RoleAdd_scan_head (ToLower : String → String) (role a : Role) (rs : List Role)
    (h : ToLower a.RoleName = ToLower role.RoleName) :
    ∃ err, RoleAdd.scan ToLower role (a :: rs) = some err := by
  unfold RoleAdd.scan
  simp [h]

theorem RoleAdd_of_scan_some (ToLower : String → String) (d : Driver) (role : Role)
    (heldAt : Option Nat) (err : Error)
    (h : RoleAdd.scan ToLower (RoleAdd.stamp d role)
      (GoMap.values (RoleAdd.written d role heldAt)) = some err) :
    RoleAdd ToLower d role heldAt =
      ({ d with lastRoleID := (d.lastRoleID + 1) % 2 ^ 32,
                roles := RoleAdd.written d role heldAt }, RoleAdd.stamp d role, some err) := by
  have h0 : RoleAdd ToLower d role heldAt =
      (match RoleAdd.scan ToLower (RoleAdd.stamp d role)
          (GoMap.values (RoleAdd.written d role heldAt)) with
       | some err =>
         ({ d with lastRoleID := (d.lastRoleID + 1) % 2 ^ 32,
                   roles := RoleAdd.written d role heldAt }, RoleAdd.stamp d role, some err)
       | none =>
         ({ d with lastRoleID := (d.lastRoleID + 1) % 2 ^ 32,
                   roles := GoMap.set (RoleAdd.written d role heldAt)
                     (RoleAdd.stamp d role).RoleID (RoleAdd.stamp d role) },
          RoleAdd.stamp d role, none)) := rfl
  rw [h0, h]

theorem RoleAdd_of_scan_none (ToLower : String → String) (d : Driver) (role : Role)
    (heldAt : Option Nat)
    (h : RoleAdd.scan ToLower (RoleAdd.stamp d role)
      (GoMap.values (RoleAdd.written d role heldAt)) = none) :
    RoleAdd ToLower d role heldAt =
      ({ d with lastRoleID := (d.lastRoleID + 1) % 2 ^ 32,
                roles := GoMap.set (RoleAdd.written d role heldAt)
                  (RoleAdd.stamp d role).RoleID (RoleAdd.stamp d role) },
       RoleAdd.stamp d role, none) := by
  have h0 : RoleAdd ToLower d role heldAt =
      (match RoleAdd.scan ToLower (RoleAdd.stamp d role)
          (GoMap.values (RoleAdd.written d role heldAt)) with
       | some err =>
         ({ d with lastRoleID := (d.lastRoleID + 1) % 2 ^ 32,
                   roles := RoleAdd.written d role heldAt }, RoleAdd.stamp d role, some err)
       | none =>
         ({ d with lastRoleID := (d.lastRoleID + 1) % 2 ^ 32,
                   roles := GoMap.set (RoleAdd.written d role heldAt)
                     (RoleAdd.stamp d role).RoleID (RoleAdd.stamp d role) },
          RoleAdd.stamp d role, none)) := rfl
  rw [h0, h]

/-- C3 (code defect): one pointer `g` to the role `guest`, which arrives with the id 2, is
passed to `RoleAdd` twice on a new driver. The first call stores it under the id 3; the second
fails on its own name after it has written the id 5 through the pointer, so that the stored
role carries the id 5 under the key 3 and the counter is 2. `RoleAdd` of `Admin` then gets the
id 3, passes the `duplicate role_Id` guard, which compares the ids of the stored roles and not
the keys, and is stored in place of `guest`; `RoleAdd` of `admin` fails. After both calls the
role set has one entry, as before them, and not one more. -/
theorem RoleAdd_case_overwrites :
    GoMap.get (runRoleOps demo.ToLower NewDriver [RoleOp.add demo.roleGuest none]).roles 3 =
      some { demo.roleGuest with RoleID := 3 } ∧
    (runRoleOps demo.ToLower NewDriver demo.guestTwice).roles =
      [(3, { demo.roleGuest with RoleID := 5 })] ∧
    (runRoleOps demo.ToLower NewDriver demo.guestTwice).lastRoleID = 2 ∧
    demo.roleAdmin.RoleName ≠ demo.roleAdminLower.RoleName ∧
    demo.ToLower demo.roleAdmin.RoleName = demo.ToLower demo.roleAdminLower.RoleName ∧
    (RoleAdd demo.ToLower (runRoleOps demo.ToLower NewDriver demo.guestTwice)
      demo.roleAdmin none).2.2 = none ∧
    (RoleAdd demo.ToLower (RoleAdd demo.ToLower (runRoleOps demo.ToLower NewDriver
      demo.guestTwice) demo.roleAdmin none).1 demo.roleAdminLower none).2.2 =
      some (Error.Errorf "duplicate role_name: admin") ∧
    (RoleAdd demo.ToLower (RoleAdd demo.ToLower (runRoleOps demo.ToLower NewDriver
      demo.guestTwice) demo.roleAdmin none).1 demo.roleAdminLower none).1.roles =
      [(3, { demo.roleAdmin with RoleID := 3 })] ∧
    ¬ ((RoleAdd demo.ToLower (RoleAdd demo.ToLower (runRoleOps demo.ToLower NewDriver
      demo.guestTwice) demo.roleAdmin none).1 demo.roleAdminLower none).1.roles.length =
        (runRoleOps demo.ToLower NewDriver demo.guestTwice).roles.length + 1) := by
  decide

/-- C9, counterexample: `UserAdd` on a new driver stores a user whose passkey is empty, and
`UserGetByPasskey` with the empty passkey then returns that user and no error. -/
theorem UserGetByPasskey_empty_stored :
    (UserAdd NewDriver demo.blankUser).2.2 = none ∧
    UserGetByPasskey (UserAdd NewDriver demo.blankUser).1 "" =
      Except.ok { demo.blankUser with UserID := 1 } ∧
    UserGetByPasskey (UserAdd NewDriver demo.blankUser).1 "" ≠
      Except.error Error.ErrUnauthorized := by
  decide

/-- C9, amended: in every driver state, for every passkey under which no user is stored,
`UserGetByPasskey` returns no user and exactly `ErrUnauthorized`, whatever else the state
holds; any two such passkeys have identical outcomes, and the empty passkey is one of them as
long as no user is stored under the empty passkey. -/
theorem UserGetByPasskey_unknown (d : Driver) (passkey : String)
    (hp : passkey ∉ GoMap.keys d.users) :
    UserGetByPasskey d passkey = Except.error Error.ErrUnauthorized ∧
    (∀ other, other ∉ GoMap.keys d.users →
      UserGetByPasskey d other = UserGetByPasskey d passkey) ∧
    ("" ∉ GoMap.keys d.users →
      UserGetByPasskey d "" = Except.error Error.ErrUnauthorized ∧
      UserGetByPasskey d passkey = UserGetByPasskey d "") := by
  have hall : ∀ p, p ∉ GoMap.keys d.users →
      UserGetByPasskey d p = Except.error Error.ErrUnauthorized := by
    intro p hnot
    unfold UserGetByPasskey
    rw [GoMap.get_eq_none_of_not_mem _ hnot]
  exact ⟨hall passkey hp, fun other ho => (hall other ho).trans (hall passkey hp).symm,
    fun he => ⟨hall "" he, (hall passkey hp).trans (hall "" he).symm⟩⟩

theorem UserGetByPasskey_unknown_witness :
    GoMap.get (UserAdd NewDriver demo.blankUser).1.users "" =
      some { demo.blankUser with UserID := 1 } ∧
    "nobody" ∉ GoMap.keys (UserAdd NewDriver demo.blankUser).1.users ∧
    (UserGetByPasskey (UserAdd NewDriver demo.blankUser).1 "nobody" =
       Except.error Error.ErrUnauthorized ∧
     (∀ other, other ∉ GoMap.keys (UserAdd NewDriver demo.blankUser).1.users →
       UserGetByPasskey (UserAdd NewDriver demo.blankUser).1 other =
         UserGetByPasskey (UserAdd NewDriver demo.blankUser).1 "nobody") ∧
     ("" ∉ GoMap.keys (UserAdd NewDriver demo.blankUser).1.users →
       UserGetByPasskey (UserAdd NewDriver demo.blankUser).1 "" =
         Except.error Error.ErrUnauthorized ∧
       UserGetByPasskey (UserAdd NewDriver demo.blankUser).1 "nobody" =
         UserGetByPasskey (UserAdd NewDriver demo.blankUser).1 "")) :=
  ⟨by decide, by decide,
   UserGetByPasskey_unknown (UserAdd NewDriver demo.blankUser).1 "nobody" (by decide)⟩

theorem UserAdd_of_fresh_id (d : Driver) (usr : User)
    (hfresh : ∀ existing ∈ GoMap.values d.users,
      existing.UserID ≠ (usr.UserID + (d.lastUserID + 1) % 2 ^ 32) % 2 ^ 32) :
    UserAdd d usr =
      ({ d with lastUserID := (d.lastUserID + 1) % 2 ^ 32,
                users := GoMap.set d.users usr.Passkey
                  { usr with UserID := (usr.UserID + (d.lastUserID + 1) % 2 ^ 32) % 2 ^ 32 } },
       { usr with UserID := (usr.UserID + (d.lastUserID + 1) % 2 ^ 32) % 2 ^ 32 }, none) := by
  have hany : (GoMap.values d.users).any (fun existing => decide (existing.UserID =
      (usr.UserID + (d.lastUserID + 1) % 2 ^ 32) % 2 ^ 32)) = false := by
    rw [List.any_eq_false]
    intro x hx
    simpa using hfresh x hx
  have h0 : UserAdd d usr =
      (if (GoMap.values d.users).any (fun existing => decide (existing.UserID =
          (usr.UserID + (d.lastUserID + 1) % 2 ^ 32) % 2 ^ 32)) = true then
        ({ d with lastUserID := (d.lastUserID + 1) % 2 ^ 32 },
         { usr with UserID := (usr.UserID + (d.lastUserID + 1) % 2 ^ 32) % 2 ^ 32 },
         some Error.ErrDuplicate)
       else
        ({ d with lastUserID := (d.lastUserID + 1) % 2 ^ 32,
                  users := GoMap.set d.users usr.Passkey
                    { usr with UserID := (usr.UserID + (d.lastUserID + 1) % 2 ^ 32) % 2 ^ 32 } },
         { usr with UserID := (usr.UserID + (d.lastUserID + 1) % 2 ^ 32) % 2 ^ 32 }, none)) := rfl
  rw [h0, hany]
  rfl

/-- C10 (code defect): with `goodUser` stored under the passkey "good", `UserAdd` of another
user that carries the same passkey returns no error and stores the new user under "good" in
place of the earlier one. -/
theorem UserAdd_same_passkey_replaces :
    GoMap.get demo.driver.users "good" = some demo.goodUser ∧
    demo.rivalUser.Passkey = "good" ∧
    demo.rivalUser ≠ demo.goodUser ∧
    (UserAdd demo.driver demo.rivalUser).2.2 = none ∧
    GoMap.get (UserAdd demo.driver demo.rivalUser).1.users "good" =
      some { demo.rivalUser with UserID := 9 } ∧
    GoMap.get (UserAdd demo.driver demo.rivalUser).1.users "good" ≠ some demo.goodUser ∧
    (UserAdd demo.driver demo.rivalUser).1.users.length = 1 := by
  decide

end memory

/-! ## The scrape handler -/

namespace tracker

open consts store

theorem scrapeStep_eq (env : Env) (resp : GoMap String BDict) (ihStr : String) :
    scrapeStep env resp ihStr =
      match scrapeResolves env ihStr with
      | none => resp
      | some kt => GoMap.set resp kt.1 (scrapeEntry kt.2) := by
  unfold scrapeStep scrapeResolves
  cases h1 : env.InfoHashFromString ihStr with
  | none => rfl
  | some ih =>
    cases h2 : env.TorrentGet ih false with
    | error e => simp only [h2]
    | ok t => simp only [h2]

theorem scrape_of_ok (env : Env) (passkey rawQuery : String) (infoHashes : List String)
    (hauth : (preFlightChecks env User.zero passkey).ok = true)
    (hq : env.queryStringParser rawQuery = some infoHashes) (hne : infoHashes ≠ []) :
    scrape env passkey rawQuery =
      [{ status := 200, contentType := "text/plain",
         body := Body.files (infoHashes.foldl (scrapeStep env) []) }] := by
  have hw := preFlightChecks_written_of_ok env User.zero passkey hauth
  have hlen : ¬ infoHashes.length = 0 := fun h => hne (List.length_eq_zero.mp h)
  unfold scrape
  simp only [hauth, hw, hq, hlen]
  rfl

theorem scrape_fold_keys (env : Env) (l : List String) :
    ∀ acc : GoMap String BDict,
      (GoMap.keys acc ++ (l.filterMap (scrapeResolves env)).map Prod.fst).Nodup →
      GoMap.keys (l.foldl (scrapeStep env) acc) =
        ((l.filterMap (scrapeResolves env)).map Prod.fst).reverse ++ GoMap.keys acc := by
  induction l with
  | nil => intro acc _; simp
  | cons s l ih =>
    intro acc hnd
    rw [List.foldl_cons, scrapeStep_eq]
    cases hs : scrapeResolves env s with
    | none =>
      simp only [List.filterMap_cons, hs] at hnd ⊢
      exact ih acc hnd
    | some kt =>
      simp only [List.filterMap_cons, hs, List.map_cons] at hnd ⊢
      have hfresh : kt.1 ∉ GoMap.keys acc := by
        intro hmem
        have := (List.nodup_append.mp hnd).2.2
        exact this hmem (List.mem_cons_self _ _)
      rw [GoMap.set_of_not_mem _ _ hfresh]
      have hnd2 : (GoMap.keys ((kt.1, scrapeEntry kt.2) :: acc) ++
          (l.filterMap (scrapeResolves env)).map Prod.fst).Nodup := by
        have hperm : (GoMap.keys acc ++ kt.1 :: (l.filterMap (scrapeResolves env)).map Prod.fst).Perm
            (kt.1 :: (GoMap.keys acc ++ (l.filterMap (scrapeResolves env)).map Prod.fst)) :=
          List.perm_middle
        exact (hperm.nodup_iff).mp hnd
      rw [ih _ hnd2]
      simp [GoMap.keys]

theorem scrape_fold_get (env : Env) (key : String) (v : BDict) (l : List String) :
    ∀ acc : GoMap String BDict,
      (∀ s ∈ l, ∀ kt, scrapeResolves env s = some kt → kt.1 = key → scrapeEntry kt.2 = v) →
      (GoMap.get acc key = some v ∨ ∃ s ∈ l, ∃ kt, scrapeResolves env s = some kt ∧ kt.1 = key) →
      GoMap.get (l.foldl (scrapeStep env) acc) key = some v := by
  induction l with
  | nil =>
    intro acc _ h
    rcases h with h | ⟨s, hs, _⟩
    · exact h
    · cases hs
  | cons s l ih =>
    intro acc hall h
    rw [List.foldl_cons, scrapeStep_eq]
    have hall2 : ∀ s2 ∈ l, ∀ kt, scrapeResolves env s2 = some kt → kt.1 = key →
        scrapeEntry kt.2 = v := fun s2 hs2 => hall s2 (List.mem_cons_of_mem _ hs2)
    cases hs : scrapeResolves env s with
    | none =>
      apply ih acc hall2
      rcases h with h | ⟨s2, hs2, kt, hr, hk⟩
      · exact Or.inl h
      · rcases List.mem_cons.mp hs2 with rfl | hs2
        · rw [hs] at hr; cases hr
        · exact Or.inr ⟨s2, hs2, kt, hr, hk⟩
    | some kt0 =>
      apply ih _ hall2
      by_cases hk0 : kt0.1 = key
      · left
        have hv := hall s (List.mem_cons_self _ _) kt0 hs hk0
        show GoMap.get (GoMap.set acc kt0.1 (scrapeEntry kt0.2)) key = some v
        rw [hk0, hv, GoMap.get_set_self]
      · rcases h with h | ⟨s2, hs2, kt, hr, hk⟩
        · left
          show GoMap.get (GoMap.set acc kt0.1 (scrapeEntry kt0.2)) key = some v
          rw [GoMap.get_set_of_ne _ _ (fun h2 => hk0 h2.symm), h]
        · rcases List.mem_cons.mp hs2 with rfl | hs2
          · rw [hs] at hr
            cases hr
            exact absurd hk hk0
          · exact Or.inr ⟨s2, hs2, kt, hr, hk⟩

theorem scrapeResolves_some (env : Env) (s : String) (kt : String × Torrent)
    (h : scrapeResolves env s = some kt) :
    ∃ ih, env.InfoHashFromString s = some ih ∧ env.TorrentGet ih false = Except.ok kt.2 ∧
      kt.1 = env.InfoHashString ih := by
  unfold scrapeResolves at h
  cases h1 : env.InfoHashFromString s with
  | none => simp only [h1] at h; cases h
  | some ih =>
    cases h2 : env.TorrentGet ih false with
    | error e => simp only [h1, h2] at h; cases h
    | ok t =>
      simp only [h1, h2] at h
      cases h
      exact ⟨ih, rfl, h2, rfl⟩

theorem scrapeResolves_of (env : Env) (s : String) (ih : InfoHash) (t : Torrent)
    (h1 : env.InfoHashFromString s = some ih) (h2 : env.TorrentGet ih false = Except.ok t) :
    scrapeResolves env s = some (env.InfoHashString ih, t) := by
  unfold scrapeResolves
  simp only [h1, h2]

/-- C4, counterexample: the request `A,A` names the stored torrent A twice; both values decode
and resolve (N = 2, M = 2), yet the response dictionary has the single entry `A`. -/
theorem scrape_repeated_hash :
    (preFlightChecks (demo.env true) User.zero "").ok = true ∧
    (demo.env true).queryStringParser "A,A" = some ["A", "A"] ∧
    (["A", "A"].filterMap (scrapeResolves (demo.env true))).length = 2 ∧
    scrape (demo.env true) "" "A,A" =
      [{ status := 200, contentType := "text/plain",
         body := Body.files [("A", [("complete", BValue.int 3), ("downloaded", BValue.int 0),
                                    ("incomplete", BValue.int 1)])] }] := by
  decide

/-- C4, amended: for every request that passes the auth gate and whose query parses to a
non-empty sequence of info_hash values, of which M decode and resolve through
`TorrentGet(h, false)`, and among which no two of those M have the same canonical string,
`scrape` writes one response, status 200, whose dictionary has exactly M entries, keyed by the
canonical strings of the resolved hashes; the values that do not decode or do not resolve are
skipped and change neither the status nor the rest of the batch. -/
theorem scrape_entry_count (env : Env) (passkey rawQuery : String) (infoHashes : List String)
    (hauth : (preFlightChecks env User.zero passkey).ok = true)
    (hq : env.queryStringParser rawQuery = some infoHashes) (hne : infoHashes ≠ [])
    (hdistinct : ((infoHashes.filterMap (scrapeResolves env)).map Prod.fst).Nodup) :
    ∃ resp : GoMap String BDict,
      scrape env passkey rawQuery =
        [{ status := 200, contentType := "text/plain", body := Body.files resp }] ∧
      resp.length = (infoHashes.filterMap (scrapeResolves env)).length ∧
      ∀ k, k ∈ GoMap.keys resp ↔
        k ∈ (infoHashes.filterMap (scrapeResolves env)).map Prod.fst := by
  refine ⟨infoHashes.foldl (scrapeStep env) [], scrape_of_ok env passkey rawQuery infoHashes
    hauth hq hne, ?_, ?_⟩
  · have hk := scrape_fold_keys env infoHashes [] (by simpa [GoMap.keys] using hdistinct)
    have hlen := congrArg List.length hk
    simpa [GoMap.keys] using hlen
  · intro k
    rw [scrape_fold_keys env infoHashes [] (by simpa [GoMap.keys] using hdistinct)]
    simp [GoMap.keys]

theorem scrape_entry_count_witness :
    (preFlightChecks (demo.env true) User.zero "").ok = true ∧
    (demo.env true).queryStringParser "A,!,D,B,C" = some ["A", "!", "D", "B", "C"] ∧
    ["A", "!", "D", "B", "C"] ≠ [] ∧
    ((["A", "!", "D", "B", "C"].filterMap (scrapeResolves (demo.env true))).map Prod.fst).Nodup ∧
    (["A", "!", "D", "B", "C"].filterMap (scrapeResolves (demo.env true))).length = 2 ∧
    ∃ resp : GoMap String BDict,
      scrape (demo.env true) "" "A,!,D,B,C" =
        [{ status := 200, contentType := "text/plain", body := Body.files resp }] ∧
      resp.length = (["A", "!", "D", "B", "C"].filterMap (scrapeResolves (demo.env true))).length ∧
      ∀ k, k ∈ GoMap.keys resp ↔
        k ∈ (["A", "!", "D", "B", "C"].filterMap (scrapeResolves (demo.env true))).map Prod.fst :=
  ⟨by decide, by decide, by decide, by decide, by decide,
   scrape_entry_count (demo.env true) "" "A,!,D,B,C" ["A", "!", "D", "B", "C"]
     (by decide) (by decide) (by decide) (by decide)⟩

/-- C5: for every request that passes the auth gate and whose parsed query holds no info_hash
value, `scrape` writes exactly one response, the malformed-request error (status 901, failure
reason "Malformed request"), whatever the torrent lookup would return. -/
theorem scrape_without_info_hash (env : Env) (passkey rawQuery : String)
    (hauth : (preFlightChecks env User.zero passkey).ok = true)
    (hq : env.queryStringParser rawQuery = some []) :
    scrape env passkey rawQuery =
      [{ status := 901, contentType := "text/plain",
         body := Body.dict [("failure reason", BValue.str "Malformed request")] }] := by
  have hw := preFlightChecks_written_of_ok env User.zero passkey hauth
  have hoops : oops msgMalformedRequest =
      { status := 901, contentType := "text/plain",
        body := Body.dict [("failure reason", BValue.str "Malformed request")] } := by decide
  unfold scrape
  simp only [hauth, hw, hq]
  rw [← hoops]
  rfl

theorem scrape_without_info_hash_witness :
    (preFlightChecks (demo.env false) User.zero "good").ok = true ∧
    (demo.env false).queryStringParser "" = some [] ∧
    scrape (demo.env false) "good" "" =
      [{ status := 901, contentType := "text/plain",
         body := Body.dict [("failure reason", BValue.str "Malformed request")] }] :=
  ⟨by decide, by decide,
   scrape_without_info_hash (demo.env false) "good" "" (by decide) (by decide)⟩

/-- C6: for every scrape request and every requested info_hash that decodes and resolves
(`TorrentGet(h, false)`, which leaves deleted torrents out) to a torrent T, the dictionary that
the loop of `scrape` builds from the requested hashes holds, under that hash's canonical string
form, the value `{complete: T.Seeders, downloaded: T.Snatches, incomplete: T.Leechers}`; and
this dictionary is the body of the status 200 response that `scrape` writes for every request
that has come to the loop, its passkey accepted and its query parsed into these hashes. The
string form of `InfoHash.String`, which is not among the sources, is taken to be canonical:
two hashes that `InfoHashFromString` yields and that have one string form are one hash. -/
theorem scrape_holds_entry (env : Env) (infoHashes : List String)
    (ihStr : String) (ih : InfoHash) (T : Torrent)
    (hs : ihStr ∈ infoHashes)
    (hdec : env.InfoHashFromString ihStr = some ih)
    (hget : env.TorrentGet ih false = Except.ok T)
    (hcanon : ∀ s1 s2 h1 h2, env.InfoHashFromString s1 = some h1 →
      env.InfoHashFromString s2 = some h2 →
      env.InfoHashString h1 = env.InfoHashString h2 → h1 = h2) :
    GoMap.get (infoHashes.foldl (scrapeStep env) []) (env.InfoHashString ih) =
      some [("complete", BValue.int T.Seeders), ("downloaded", BValue.int T.Snatches),
            ("incomplete", BValue.int T.Leechers)] ∧
    ∀ passkey rawQuery : String,
      (preFlightChecks env User.zero passkey).ok = true →
      env.queryStringParser rawQuery = some infoHashes →
      scrape env passkey rawQuery =
        [{ status := 200, contentType := "text/plain",
           body := Body.files (infoHashes.foldl (scrapeStep env) []) }] := by
  have hne : infoHashes ≠ [] := List.ne_nil_of_mem hs
  refine ⟨?_, fun passkey rawQuery hauth hq =>
    scrape_of_ok env passkey rawQuery infoHashes hauth hq hne⟩
  apply scrape_fold_get env (env.InfoHashString ih) (scrapeEntry T) infoHashes []
  · intro s2 _ kt hr hk
    obtain ⟨ih2, h1, h2, h3⟩ := scrapeResolves_some env s2 kt hr
    have heq : ih2 = ih := hcanon s2 ihStr ih2 ih h1 hdec (h3.symm.trans hk)
    rw [heq, hget] at h2
    cases h2
    rfl
  · exact Or.inr ⟨ihStr, hs, _, scrapeResolves_of env ihStr ih T hdec hget, rfl⟩

theorem scrape_holds_entry_witness :
    (demo.env true).queryStringParser "A,B,C" = some ["A", "B", "C"] ∧
    GoMap.get (["A", "B", "C"].foldl (scrapeStep (demo.env true)) []) "A" =
      some [("complete", BValue.int 3), ("downloaded", BValue.int 0),
            ("incomplete", BValue.int 1)] ∧
    scrape (demo.env true) "" "A,B,C" =
      [{ status := 200, contentType := "text/plain",
         body := Body.files (["A", "B", "C"].foldl (scrapeStep (demo.env true)) []) }] :=
  have hcanon : ∀ s1 s2 h1 h2, (demo.env true).InfoHashFromString s1 = some h1 →
      (demo.env true).InfoHashFromString s2 = some h2 →
      (demo.env true).InfoHashString h1 = (demo.env true).InfoHashString h2 → h1 = h2 := by
    have hshape : ∀ s h, (demo.env true).InfoHashFromString s = some h →
        ∃ c : Char, h = [c.toNat] := by
      intro s h hd
      simp only [demo.env] at hd
      split at hd
      · split at hd
        · cases hd
        · cases hd
          exact ⟨_, rfl⟩
      · cases hd
    intro s1 s2 h1 h2 hd1 hd2 hc
    obtain ⟨c1, rfl⟩ := hshape s1 h1 hd1
    obtain ⟨c2, rfl⟩ := hshape s2 h2 hd2
    have hc2 : String.mk [Char.ofNat c1.toNat] = String.mk [Char.ofNat c2.toNat] := hc
    rw [Char.ofNat_toNat, Char.ofNat_toNat] at hc2
    have hcc : c1 = c2 := by
      injection hc2 with h3
      injection h3
    rw [hcc]
  ⟨by decide,
   (scrape_holds_entry (demo.env true) ["A", "B", "C"] "A" [65] demo.torrentA
     (by decide) (by decide) (by decide) hcanon).1,
   (scrape_holds_entry (demo.env true) ["A", "B", "C"] "A" [65] demo.torrentA
     (by decide) (by decide) (by decide) hcanon).2 "" "A,B,C" (by decide) (by decide)⟩

end tracker

/-! ## More lemmas on Go maps -/

namespace GoMap

variable {κ β : Type} [DecidableEq κ]

theorem not_mem_of_get_eq_none (m : GoMap κ β) {k : κ} (h : get m k = none) : k ∉ keys m := by
  induction m with
  | nil => simp [keys]
  | cons e m ih =>
    rw [get_cons] at h
    by_cases hk : e.1 = k
    · simp [hk] at h
    · rw [if_neg hk] at h
      intro hmem
      simp only [keys, List.map_cons, List.mem_cons] at hmem
      rcases hmem with h1 | h1
      · exact hk h1.symm
      · exact ih h h1

theorem not_mem_keys_delete (m : GoMap κ β) (k : κ) : k ∉ keys (delete m k) := by
  intro hmem
  obtain ⟨e, he, hk⟩ := List.mem_map.mp hmem
  have h2 := (List.mem_filter.mp he).2
  simp [hk] at h2

theorem get_delete_self (m : GoMap κ β) (k : κ) : get (delete m k) k = none :=
  get_eq_none_of_not_mem _ (not_mem_keys_delete m k)

theorem delete_delete (m : GoMap κ β) (k : κ) : delete (delete m k) k = delete m k :=
  delete_of_not_mem _ (not_mem_keys_delete m k)

theorem delete_set (m : GoMap κ β) (k : κ) (v : β) : delete (set m k v) k = delete m k := by
  have h1 : delete (set m k v) k = delete (delete m k) k := by
    simp [set, delete]
  rw [h1, delete_delete]

theorem mem_of_mem_delete (m : GoMap κ β) (k : κ) {e : κ × β} (h : e ∈ delete m k) :
    e ∈ m ∧ e.1 ≠ k := by
  have h2 := List.mem_filter.mp h
  refine ⟨h2.1, ?_⟩
  intro hk
  simp [hk] at h2

end GoMap

/-! ## The in-memory driver: torrents, whitelist and users -/

namespace memory

open consts store

/-- C13: when a torrent is stored under the info hash of `t`, `TorrentAdd` returns
`ErrDuplicate` and leaves the driver, hence the torrent collection, as it was; when none is
stored under it, `TorrentAdd` returns no error and the collection is the old one plus the
single entry that maps the hash to `t`. -/
theorem TorrentAdd_duplicate_or_new (d : Driver) (t : Torrent) :
    (∀ old, GoMap.get d.torrents t.InfoHash = some old →
      TorrentAdd d t = (d, some Error.ErrDuplicate)) ∧
    (GoMap.get d.torrents t.InfoHash = none →
      TorrentAdd d t = ({ d with torrents := (t.InfoHash, t) :: d.torrents }, none) ∧
      (TorrentAdd d t).1.torrents.length = d.torrents.length + 1 ∧
      GoMap.get (TorrentAdd d t).1.torrents t.InfoHash = some t) := by
  constructor
  · intro old hold
    unfold TorrentAdd
    rw [hold]
  · intro hnone
    have h1 : TorrentAdd d t = ({ d with torrents := (t.InfoHash, t) :: d.torrents }, none) := by
      unfold TorrentAdd
      rw [hnone, GoMap.set_of_not_mem _ _ (GoMap.not_mem_of_get_eq_none _ hnone)]
    rw [h1]
    exact ⟨rfl, rfl, by simp [GoMap.get_cons]⟩

theorem TorrentAdd_duplicate_or_new_witness :
    GoMap.get demo.driver.torrents { demo.torrentA with Seeders := 50 }.InfoHash =
      some demo.torrentA ∧
    TorrentAdd demo.driver { demo.torrentA with Seeders := 50 } =
      (demo.driver, some Error.ErrDuplicate) ∧
    GoMap.get demo.driver.torrents demo.torrentC.InfoHash = none ∧
    (TorrentAdd demo.driver demo.torrentC =
      ({ demo.driver with torrents := ([67], demo.torrentC) :: demo.driver.torrents }, none) ∧
     (TorrentAdd demo.driver demo.torrentC).1.torrents.length =
       demo.driver.torrents.length + 1 ∧
     GoMap.get (TorrentAdd demo.driver demo.torrentC).1.torrents demo.torrentC.InfoHash =
       some demo.torrentC) :=
  ⟨by decide,
   (TorrentAdd_duplicate_or_new demo.driver { demo.torrentA with Seeders := 50 }).1
     demo.torrentA (by decide),
   by decide,
   (TorrentAdd_duplicate_or_new demo.driver demo.torrentC).2 (by decide)⟩

/-- C15: `TorrentGet(h, deletedOk)` returns a torrent `t` exactly when `t` is stored under `h`
and `t` is not marked deleted or `deletedOk` is true; in every other case it returns no
torrent and the error `ErrInvalidInfoHash`. The lookup only reads the driver. -/
theorem TorrentGet_exactly (d : Driver) (h : InfoHash) (deletedOk : Bool) :
    (∀ t, TorrentGet d h deletedOk = Except.ok t ↔
      (GoMap.get d.torrents h = some t ∧ (t.IsDeleted = false ∨ deletedOk = true))) ∧
    ((¬ ∃ t, GoMap.get d.torrents h = some t ∧ (t.IsDeleted = false ∨ deletedOk = true)) →
      TorrentGet d h deletedOk = Except.error Error.ErrInvalidInfoHash) := by
  unfold TorrentGet
  cases hg : GoMap.get d.torrents h with
  | none => simp
  | some t0 =>
    cases hdel : t0.IsDeleted <;> cases deletedOk <;> simp [hdel]

theorem TorrentGet_exactly_witness :
    (TorrentGet demo.driver [68] true = Except.ok demo.torrentD ↔
      (GoMap.get demo.driver.torrents [68] = some demo.torrentD ∧
        (demo.torrentD.IsDeleted = false ∨ true = true))) ∧
    TorrentGet demo.driver [68] true = Except.ok demo.torrentD ∧
    TorrentGet demo.driver [65] false = Except.ok demo.torrentA ∧
    TorrentGet demo.driver [68] false = Except.error Error.ErrInvalidInfoHash ∧
    TorrentGet demo.driver [99] true = Except.error Error.ErrInvalidInfoHash :=
  ⟨(TorrentGet_exactly demo.driver [68] true).1 demo.torrentD,
   by decide, by decide,
   (TorrentGet_exactly demo.driver [68] false).2 (by decide),
   (TorrentGet_exactly demo.driver [99] true).2 (by decide)⟩

/-- C16: `TorrentDelete(h, flag)` returns no error whatever the flag; afterwards
`TorrentGet(h, false)` and `TorrentGet(h, true)` both fail with `ErrInvalidInfoHash`, and
`TorrentGet` of every other hash returns what it returned before. -/
theorem TorrentDelete_physical (d : Driver) (h : InfoHash) (dropRow : Bool) :
    (TorrentDelete d h dropRow).2 = none ∧
    TorrentGet (TorrentDelete d h dropRow).1 h false =
      Except.error Error.ErrInvalidInfoHash ∧
    TorrentGet (TorrentDelete d h dropRow).1 h true =
      Except.error Error.ErrInvalidInfoHash ∧
    ∀ (h2 : InfoHash) (deletedOk : Bool), h2 ≠ h →
      TorrentGet (TorrentDelete d h dropRow).1 h2 deletedOk = TorrentGet d h2 deletedOk := by
  refine ⟨rfl, ?_, ?_, ?_⟩
  · unfold TorrentGet TorrentDelete
    simp only [GoMap.get_delete_self]
  · unfold TorrentGet TorrentDelete
    simp only [GoMap.get_delete_self]
  · intro h2 deletedOk hne
    unfold TorrentGet TorrentDelete
    simp only [GoMap.get_delete_of_ne _ hne]

theorem TorrentDelete_physical_witness :
    (TorrentDelete demo.driver [68] false).2 = none ∧
    TorrentGet (TorrentDelete demo.driver [68] false).1 [68] false =
      Except.error Error.ErrInvalidInfoHash ∧
    TorrentGet (TorrentDelete demo.driver [68] false).1 [68] true =
      Except.error Error.ErrInvalidInfoHash ∧
    TorrentGet (TorrentDelete demo.driver [68] false).1 [65] false = Except.ok demo.torrentA :=
  ⟨(TorrentDelete_physical demo.driver [68] false).1,
   (TorrentDelete_physical demo.driver [68] false).2.1,
   (TorrentDelete_physical demo.driver [68] false).2.2.1,
   ((TorrentDelete_physical demo.driver [68] false).2.2.2 [65] false (by decide)).trans
     (by decide)⟩

theorem WhiteList_keyed_add_then_delete (d : Driver) (c : WhiteListClient)
    (hinv : ∀ e ∈ d.whitelist, e.2.ClientPrefix = e.1) :
    (WhiteListAdd d c).2 = none ∧
    c ∈ (WhiteListGetAll (WhiteListAdd d c).1).1 ∧
    (WhiteListDelete (WhiteListAdd d c).1 c).2 = none ∧
    (WhiteListGetAll (WhiteListDelete (WhiteListAdd d c).1 c).1).1.length + 1 =
      (WhiteListGetAll (WhiteListAdd d c).1).1.length ∧
    (∀ w ∈ (WhiteListGetAll (WhiteListDelete (WhiteListAdd d c).1 c).1).1,
      w.ClientPrefix ≠ c.ClientPrefix) ∧
    (WhiteListGetAll (WhiteListAdd d c).1).1 =
      c :: (WhiteListGetAll (WhiteListDelete (WhiteListAdd d c).1 c).1).1 := by
  have h2 : (WhiteListDelete (WhiteListAdd d c).1 c).1.whitelist =
      GoMap.delete d.whitelist c.ClientPrefix := by
    show GoMap.delete (GoMap.set d.whitelist c.ClientPrefix c) c.ClientPrefix = _
    exact GoMap.delete_set _ _ _
  have h1 : (WhiteListAdd d c).1.whitelist =
      (c.ClientPrefix, c) :: GoMap.delete d.whitelist c.ClientPrefix := rfl
  refine ⟨rfl, ?_, rfl, ?_, ?_, ?_⟩
  · show c ∈ GoMap.values (WhiteListAdd d c).1.whitelist
    rw [h1]
    simp [GoMap.values]
  · show (GoMap.values (WhiteListDelete (WhiteListAdd d c).1 c).1.whitelist).length + 1 =
      (GoMap.values (WhiteListAdd d c).1.whitelist).length
    rw [h1, h2]
    simp [GoMap.values]
  · show ∀ w ∈ GoMap.values (WhiteListDelete (WhiteListAdd d c).1 c).1.whitelist,
      w.ClientPrefix ≠ c.ClientPrefix
    rw [h2]
    intro w hw
    obtain ⟨e, he, hew⟩ := List.mem_map.mp hw
    have h3 := GoMap.mem_of_mem_delete _ _ he
    rw [← hew, hinv e h3.1]
    exact h3.2
  · show GoMap.values (WhiteListAdd d c).1.whitelist =
      c :: GoMap.values (WhiteListDelete (WhiteListAdd d c).1 c).1.whitelist
    rw [h1, h2]
    rfl

theorem UserAdd_fresh_of_ok (d : Driver) (usr : User) (hok : (UserAdd d usr).2.2 = none) :
    ∀ existing ∈ GoMap.values d.users,
      existing.UserID ≠ (usr.UserID + (d.lastUserID + 1) % 2 ^ 32) % 2 ^ 32 := by
  have h0 : UserAdd d usr =
      (if (GoMap.values d.users).any (fun existing => decide (existing.UserID =
          (usr.UserID + (d.lastUserID + 1) % 2 ^ 32) % 2 ^ 32)) = true then
        ({ d with lastUserID := (d.lastUserID + 1) % 2 ^ 32 },
         { usr with UserID := (usr.UserID + (d.lastUserID + 1) % 2 ^ 32) % 2 ^ 32 },
         some Error.ErrDuplicate)
       else
        ({ d with lastUserID := (d.lastUserID + 1) % 2 ^ 32,
                  users := GoMap.set d.users usr.Passkey
                    { usr with UserID := (usr.UserID + (d.lastUserID + 1) % 2 ^ 32) % 2 ^ 32 } },
         { usr with UserID := (usr.UserID + (d.lastUserID + 1) % 2 ^ 32) % 2 ^ 32 }, none)) := rfl
  cases hany : (GoMap.values d.users).any (fun existing => decide (existing.UserID =
      (usr.UserID + (d.lastUserID + 1) % 2 ^ 32) % 2 ^ 32)) with
  | true =>
    rw [h0, hany] at hok
    cases hok
  | false =>
    rw [List.any_eq_false] at hany
    intro x hx
    simpa using hany x hx

/-- C18: for every driver state and every user u, if `UserAdd(u)` succeeds then
`UserGetByID` with the id given to u and `UserGetByPasskey` with u's passkey both succeed and
return u as it is after the call: the fields of u with the new `UserID`. No other stored user
has that id, so the result of `UserGetByID` does not depend on the order of the map. -/
theorem UserAdd_then_get (d : Driver) (u : User) (hok : (UserAdd d u).2.2 = none) :
    UserGetByID (UserAdd d u).1 (UserAdd d u).2.1.UserID = Except.ok (UserAdd d u).2.1 ∧
    UserGetByPasskey (UserAdd d u).1 (UserAdd d u).2.1.Passkey = Except.ok (UserAdd d u).2.1 ∧
    (UserAdd d u).2.1 =
      { u with UserID := (u.UserID + (d.lastUserID + 1) % 2 ^ 32) % 2 ^ 32 } ∧
    (∀ x ∈ GoMap.values (UserAdd d u).1.users,
      x.UserID = (UserAdd d u).2.1.UserID → x = (UserAdd d u).2.1) := by
  have hfresh := UserAdd_fresh_of_ok d u hok
  rw [UserAdd_of_fresh_id d u hfresh]
  refine ⟨?_, ?_, rfl, ?_⟩
  · unfold UserGetByID
    simp [GoMap.set, GoMap.values]
  · unfold UserGetByPasskey
    simp only [GoMap.get_set_self]
  · intro x hx hid
    simp only [GoMap.set, GoMap.values, List.map_cons, List.mem_cons] at hx
    rcases hx with hx | hx
    · exact hx
    · obtain ⟨e, he, hex⟩ := List.mem_map.mp hx
      have h3 := GoMap.mem_of_mem_delete _ _ he
      have h4 := hfresh x (hex ▸ List.mem_map_of_mem Prod.snd h3.1)
      exact absurd hid h4

theorem UserAdd_then_get_witness :
    (UserAdd demo.driver demo.blankUser).2.2 = none ∧
    (UserGetByID (UserAdd demo.driver demo.blankUser).1
       (UserAdd demo.driver demo.blankUser).2.1.UserID =
       Except.ok (UserAdd demo.driver demo.blankUser).2.1 ∧
     UserGetByPasskey (UserAdd demo.driver demo.blankUser).1
       (UserAdd demo.driver demo.blankUser).2.1.Passkey =
       Except.ok (UserAdd demo.driver demo.blankUser).2.1 ∧
     (UserAdd demo.driver demo.blankUser).2.1 =
       { demo.blankUser with
         UserID := (demo.blankUser.UserID + (demo.driver.lastUserID + 1) % 2 ^ 32) % 2 ^ 32 } ∧
     (∀ x ∈ GoMap.values (UserAdd demo.driver demo.blankUser).1.users,
       x.UserID = (UserAdd demo.driver demo.blankUser).2.1.UserID →
       x = (UserAdd demo.driver demo.blankUser).2.1)) :=
  ⟨by decide, UserAdd_then_get demo.driver demo.blankUser (by decide)⟩

/-! ### Role ids -/

theorem RoleAdd_scan_none_name (ToLower : String → String) (role : Role) (rs : List Role)
    (h : RoleAdd.scan ToLower role rs = none) :
    ∀ r ∈ rs, ToLower r.RoleName ≠ ToLower role.RoleName := by
  induction rs with
  | nil => intro r hr; cases hr
  | cons a rs ih =>
    unfold RoleAdd.scan at h
    by_cases h1 : ToLower a.RoleName = ToLower role.RoleName
    · simp [h1] at h
    · by_cases h2 : a.RoleID = role.RoleID
      · simp [h1, h2] at h
      · simp only [h1, h2, if_false] at h
        intro r hr
        rcases List.mem_cons.mp hr with rfl | hr
        · exact h1
        · exact ih h r hr

theorem RoleAdd_scan_eq_none (ToLower : String → String) (role : Role) (rs : List Role)
    (hname : ∀ r ∈ rs, ToLower r.RoleName ≠ ToLower role.RoleName)
    (hid : ∀ r ∈ rs, r.RoleID ≠ role.RoleID) : RoleAdd.scan ToLower role rs = none := by
  induction rs with
  | nil => rfl
  | cons a rs ih =>
    unfold RoleAdd.scan
    rw [if_neg (hname a (List.mem_cons_self a rs)), if_neg (hid a (List.mem_cons_self a rs))]
    exact ih (fun r hr => hname r (List.mem_cons_of_mem a hr))
      (fun r hr => hid r (List.mem_cons_of_mem a hr))

theorem mem_values_of_get (m : Roles) (key : Nat) (role : Role)
    (h : GoMap.get m key = some role) : role ∈ GoMap.values m := by
  induction m with
  | nil => cases h
  | cons e m ih =>
    rw [GoMap.get_cons] at h
    by_cases hk : e.1 = key
    · rw [if_pos hk] at h
      have he : e.2 = role := Option.some.inj h
      exact List.mem_map.mpr ⟨e, List.mem_cons_self e m, he⟩
    · rw [if_neg hk] at h
      exact List.mem_cons_of_mem _ (ih h)

theorem RoleAdd_written_some (d : Driver) (role : Role) (key : Nat) :
    RoleAdd.written d role (some key) =
      if GoMap.get d.roles key = some role then
        d.roles.map (fun e => if e.1 = key then (e.1, RoleAdd.stamp d role) else e)
      else d.roles := rfl

/-- A role whose name, lower-cased, is that of no stored role is not one the map holds: the
write of `RoleAdd` through its pointer leaves the map as it is. -/
theorem RoleAdd_written_of_new_name (ToLower : String → String) (d : Driver) (role : Role)
    (heldAt : Option Nat)
    (hname : ∀ r ∈ GoMap.values d.roles, ToLower r.RoleName ≠ ToLower role.RoleName) :
    RoleAdd.written d role heldAt = d.roles := by
  cases heldAt with
  | none => rfl
  | some key =>
    rw [RoleAdd_written_some]
    by_cases hg : GoMap.get d.roles key = some role
    · exact absurd rfl (hname role (mem_values_of_get d.roles key role hg))
    · exact if_neg hg

theorem RoleAdd_written_keys (d : Driver) (role : Role) (heldAt : Option Nat) :
    GoMap.keys (RoleAdd.written d role heldAt) = GoMap.keys d.roles := by
  cases heldAt with
  | none => rfl
  | some key =>
    rw [RoleAdd_written_some]
    by_cases hg : GoMap.get d.roles key = some role
    · rw [if_pos hg]
      unfold GoMap.keys
      rw [List.map_map]
      apply List.map_congr_left
      intro e _
      by_cases hk : e.1 = key
      · simp [hk]
      · simp [hk]
    · rw [if_neg hg]

theorem RoleAdd_written_get (d : Driver) (role : Role) (heldAt : Option Nat) (key : Nat)
    (hkey : heldAt ≠ some key) :
    GoMap.get (RoleAdd.written d role heldAt) key = GoMap.get d.roles key := by
  cases heldAt with
  | none => rfl
  | some held =>
    have hne : held ≠ key := fun h => hkey (by rw [h])
    rw [RoleAdd_written_some]
    by_cases hg : GoMap.get d.roles held = some role
    · rw [if_pos hg]
      generalize d.roles = m
      induction m with
      | nil => rfl
      | cons e m ih =>
        rw [List.map_cons, GoMap.get_cons, GoMap.get_cons, ih]
        by_cases hk : e.1 = held
        · have hek : e.1 ≠ key := fun h => hne (hk.symm.trans h)
          simp [hk, hne]
        · simp [hk]
    · rw [if_neg hg]

theorem RoleAdd_written_of_not_held (d : Driver) (role : Role) (heldAt : Option Nat)
    (h : ∀ key, heldAt = some key → GoMap.get d.roles key ≠ some role) :
    RoleAdd.written d role heldAt = d.roles := by
  cases heldAt with
  | none => rfl
  | some key =>
    rw [RoleAdd_written_some]
    exact if_neg (h key rfl)

/-- C11, counterexample: after `RoleAdd` of a role that arrives with id 1 on a new driver (it
is stored with id 2), `RoleAdd` of the role `Member`, whose id is 0 on entry and whose name
equals no stored name, returns `duplicate role_Id: 2` and leaves the role set as it was. -/
theorem RoleAdd_new_name_rejected :
    (runRoleOps demo.ToLower NewDriver [RoleOp.add demo.rolePreset none]).roles =
      [(2, { demo.rolePreset with RoleID := 2 })] ∧
    (runRoleOps demo.ToLower NewDriver [RoleOp.add demo.rolePreset none]).lastRoleID = 1 ∧
    demo.roleMember.RoleID = 0 ∧
    (∀ r ∈ GoMap.values
        (runRoleOps demo.ToLower NewDriver [RoleOp.add demo.rolePreset none]).roles,
      demo.ToLower r.RoleName ≠ demo.ToLower demo.roleMember.RoleName) ∧
    (RoleAdd demo.ToLower (runRoleOps demo.ToLower NewDriver [RoleOp.add demo.rolePreset none])
      demo.roleMember none).2.2 = some (Error.Errorf "duplicate role_Id: 2") ∧
    (RoleAdd demo.ToLower (runRoleOps demo.ToLower NewDriver [RoleOp.add demo.rolePreset none])
      demo.roleMember none).1.roles =
      (runRoleOps demo.ToLower NewDriver [RoleOp.add demo.rolePreset none]).roles := by
  decide

/-- C11, amended: in every state reachable from a new driver through any sequence of
`RoleAdd` and `RoleDelete` calls, a `RoleAdd` with a pointer that the map already holds
included, and for any lower-casing function: `RoleAdd` of a role whose `RoleID` is 0 on entry,
whose name equals no stored role's name after lower-casing, and for which the counter value
incremented by one is the `RoleID` of no stored role, succeeds and sets the role's id to the
counter value incremented by one; when no role is stored under that id, it adds exactly that
role, under that id, to the role set. `RoleAdd` fails only when the name or the id already
exists. -/
theorem RoleAdd_new_name_and_id (ToLower : String → String) (ops : List RoleOp) (role : Role)
    (heldAt : Option Nat)
    (hzero : role.RoleID = 0)
    (hname : ∀ r ∈ GoMap.values (runRoleOps ToLower NewDriver ops).roles,
      ToLower r.RoleName ≠ ToLower role.RoleName)
    (hid : ∀ r ∈ GoMap.values (runRoleOps ToLower NewDriver ops).roles,
      r.RoleID ≠ ((runRoleOps ToLower NewDriver ops).lastRoleID + 1) % 2 ^ 32) :
    (RoleAdd ToLower (runRoleOps ToLower NewDriver ops) role heldAt).2.2 = none ∧
    (RoleAdd ToLower (runRoleOps ToLower NewDriver ops) role heldAt).2.1 =
      { role with RoleID := ((runRoleOps ToLower NewDriver ops).lastRoleID + 1) % 2 ^ 32 } ∧
    (RoleAdd ToLower (runRoleOps ToLower NewDriver ops) role heldAt).1.lastRoleID =
      ((runRoleOps ToLower NewDriver ops).lastRoleID + 1) % 2 ^ 32 ∧
    (((runRoleOps ToLower NewDriver ops).lastRoleID + 1) % 2 ^ 32 ∉
        GoMap.keys (runRoleOps ToLower NewDriver ops).roles →
      (RoleAdd ToLower (runRoleOps ToLower NewDriver ops) role heldAt).1.roles =
        (((runRoleOps ToLower NewDriver ops).lastRoleID + 1) % 2 ^ 32,
          { role with RoleID := ((runRoleOps ToLower NewDriver ops).lastRoleID + 1) % 2 ^ 32 })
          :: (runRoleOps ToLower NewDriver ops).roles) := by
  generalize runRoleOps ToLower NewDriver ops = d at hname hid ⊢
  have hstamp : RoleAdd.stamp d role = { role with RoleID := (d.lastRoleID + 1) % 2 ^ 32 } := by
    unfold RoleAdd.stamp
    rw [hzero, Nat.zero_add, Nat.mod_mod]
  have hwritten := RoleAdd_written_of_new_name ToLower d role heldAt hname
  have hscan : RoleAdd.scan ToLower (RoleAdd.stamp d role)
      (GoMap.values (RoleAdd.written d role heldAt)) = none := by
    rw [hwritten]
    apply RoleAdd_scan_eq_none
    · rw [hstamp]; exact hname
    · rw [hstamp]; exact hid
  have hadd := RoleAdd_of_scan_none ToLower d role heldAt hscan
  rw [hadd, hwritten, hstamp]
  refine ⟨rfl, rfl, rfl, ?_⟩
  intro hkey
  show GoMap.set d.roles ((d.lastRoleID + 1) % 2 ^ 32)
    { role with RoleID := (d.lastRoleID + 1) % 2 ^ 32 } = _
  rw [GoMap.set_of_not_mem _ _ hkey]

theorem RoleAdd_new_name_and_id_witness :
    (runRoleOps demo.ToLower NewDriver demo.presetTwice).roles =
      [(3, { demo.roleAdmin with RoleID := 3 })] ∧
    (runRoleOps demo.ToLower NewDriver demo.presetTwice).lastRoleID = 3 ∧
    (RoleAdd demo.ToLower (runRoleOps demo.ToLower NewDriver demo.presetTwice)
      demo.roleMember none).2.2 = none ∧
    (RoleAdd demo.ToLower (runRoleOps demo.ToLower NewDriver demo.presetTwice)
      demo.roleMember none).2.1 = { demo.roleMember with RoleID := 4 } ∧
    (RoleAdd demo.ToLower (runRoleOps demo.ToLower NewDriver demo.presetTwice)
      demo.roleMember none).1.roles =
      [(4, { demo.roleMember with RoleID := 4 }), (3, { demo.roleAdmin with RoleID := 3 })] ∧
    (RoleAdd demo.ToLower (runRoleOps demo.ToLower NewDriver demo.presetTwice)
      demo.roleMember none).1.roles =
      (((runRoleOps demo.ToLower NewDriver demo.presetTwice).lastRoleID + 1) % 2 ^ 32,
        { demo.roleMember with
          RoleID := ((runRoleOps demo.ToLower NewDriver demo.presetTwice).lastRoleID + 1)
            % 2 ^ 32 })
        :: (runRoleOps demo.ToLower NewDriver demo.presetTwice).roles :=
  ⟨by decide, by decide, by decide, by decide, by decide,
   (RoleAdd_new_name_and_id demo.ToLower demo.presetTwice demo.roleMember none
     (by decide) (by decide) (by decide)).2.2.2 (by decide)⟩

/-- C12, counterexample: `RoleAdd` of `admin` after `Admin` returns an error, yet the driver's
counter has moved from 1 to 2 and the role passed in carries the id 2 instead of 0; and
`RoleAdd` with the pointer under which `Admin` is already held returns an error and leaves
the stored role with the id 3 under the key 1, so that the role set is not the same. -/
theorem RoleAdd_error_advances_ids :
    (RoleAdd demo.ToLower (RoleAdd demo.ToLower NewDriver demo.roleAdmin none).1
      demo.roleAdminLower none).2.2 = some (Error.Errorf "duplicate role_name: admin") ∧
    (RoleAdd demo.ToLower NewDriver demo.roleAdmin none).1.lastRoleID = 1 ∧
    (RoleAdd demo.ToLower (RoleAdd demo.ToLower NewDriver demo.roleAdmin none).1
      demo.roleAdminLower none).1.lastRoleID = 2 ∧
    demo.roleAdminLower.RoleID = 0 ∧
    (RoleAdd demo.ToLower (RoleAdd demo.ToLower NewDriver demo.roleAdmin none).1
      demo.roleAdminLower none).2.1.RoleID = 2 ∧
    (RoleAdd demo.ToLower NewDriver demo.roleAdmin none).1.roles =
      [(1, { demo.roleAdmin with RoleID := 1 })] ∧
    (RoleAdd demo.ToLower (RoleAdd demo.ToLower NewDriver demo.roleAdmin none).1
      { demo.roleAdmin with RoleID := 1 } (some 1)).2.2 =
      some (Error.Errorf "duplicate role_name: Admin") ∧
    (RoleAdd demo.ToLower (RoleAdd demo.ToLower NewDriver demo.roleAdmin none).1
      { demo.roleAdmin with RoleID := 1 } (some 1)).1.roles =
      [(1, { demo.roleAdmin with RoleID := 3 })] := by
  decide

/-- C12, amended: a `RoleAdd` call that returns an error leaves the users, the torrents, the
whitelist and the user id counter unchanged, and the role set with the same ids and, under
every id other than the one under which the driver already holds the role passed in, the same
role; when the driver does not hold the role passed in, the role set is unchanged. The role id
counter is advanced by one, modulo `2 ^ 32`. -/
theorem RoleAdd_error_effects (ToLower : String → String) (d : Driver) (role : Role)
    (heldAt : Option Nat) (err : Error)
    (herr : (RoleAdd ToLower d role heldAt).2.2 = some err) :
    (RoleAdd ToLower d role heldAt).1.lastRoleID = (d.lastRoleID + 1) % 2 ^ 32 ∧
    GoMap.keys (RoleAdd ToLower d role heldAt).1.roles = GoMap.keys d.roles ∧
    (∀ key, heldAt ≠ some key →
      GoMap.get (RoleAdd ToLower d role heldAt).1.roles key = GoMap.get d.roles key) ∧
    ((∀ key, heldAt = some key → GoMap.get d.roles key ≠ some role) →
      (RoleAdd ToLower d role heldAt).1.roles = d.roles) ∧
    (RoleAdd ToLower d role heldAt).1.users = d.users ∧
    (RoleAdd ToLower d role heldAt).1.torrents = d.torrents ∧
    (RoleAdd ToLower d role heldAt).1.whitelist = d.whitelist ∧
    (RoleAdd ToLower d role heldAt).1.lastUserID = d.lastUserID := by
  cases hs : RoleAdd.scan ToLower (RoleAdd.stamp d role)
      (GoMap.values (RoleAdd.written d role heldAt)) with
  | some e =>
    rw [RoleAdd_of_scan_some ToLower d role heldAt e hs]
    exact ⟨rfl, RoleAdd_written_keys d role heldAt,
      fun key hkey => RoleAdd_written_get d role heldAt key hkey,
      fun h => RoleAdd_written_of_not_held d role heldAt h, rfl, rfl, rfl, rfl⟩
  | none =>
    rw [RoleAdd_of_scan_none ToLower d role heldAt hs] at herr
    cases herr

theorem RoleAdd_error_effects_witness :
    (RoleAdd demo.ToLower (RoleAdd demo.ToLower NewDriver demo.roleAdmin none).1
      { demo.roleAdmin with RoleID := 1 } (some 1)).2.2 =
      some (Error.Errorf "duplicate role_name: Admin") ∧
    (RoleAdd demo.ToLower (RoleAdd demo.ToLower NewDriver demo.roleAdmin none).1
      { demo.roleAdmin with RoleID := 1 } (some 1)).1.lastRoleID = 2 ∧
    GoMap.keys (RoleAdd demo.ToLower (RoleAdd demo.ToLower NewDriver demo.roleAdmin none).1
      { demo.roleAdmin with RoleID := 1 } (some 1)).1.roles = [1] ∧
    (RoleAdd demo.ToLower (RoleAdd demo.ToLower NewDriver demo.roleAdmin none).1
      { demo.roleAdmin with RoleID := 1 } (some 1)).1.lastRoleID =
      ((RoleAdd demo.ToLower NewDriver demo.roleAdmin none).1.lastRoleID + 1) % 2 ^ 32 ∧
    GoMap.keys (RoleAdd demo.ToLower (RoleAdd demo.ToLower NewDriver demo.roleAdmin none).1
      { demo.roleAdmin with RoleID := 1 } (some 1)).1.roles =
      GoMap.keys (RoleAdd demo.ToLower NewDriver demo.roleAdmin none).1.roles :=
  ⟨by decide, by decide, by decide,
   (RoleAdd_error_effects demo.ToLower (RoleAdd demo.ToLower NewDriver demo.roleAdmin none).1
     { demo.roleAdmin with RoleID := 1 } (some 1)
     (Error.Errorf "duplicate role_name: Admin") (by decide)).1,
   (RoleAdd_error_effects demo.ToLower (RoleAdd demo.ToLower NewDriver demo.roleAdmin none).1
     { demo.roleAdmin with RoleID := 1 } (some 1)
     (Error.Errorf "duplicate role_name: Admin") (by decide)).2.1⟩

/-! ### User ids along a sequence of calls -/

theorem UserAdd_lastUserID (d : Driver) (usr : User) :
    (UserAdd d usr).1.lastUserID = (d.lastUserID + 1) % 2 ^ 32 := by
  unfold UserAdd
  dsimp only
  split <;> rfl

theorem UserAdd_UserID (d : Driver) (usr : User) :
    (UserAdd d usr).2.1.UserID = (usr.UserID + (d.lastUserID + 1) % 2 ^ 32) % 2 ^ 32 := by
  unfold UserAdd
  dsimp only
  split <;> rfl

theorem RoleAdd_lastUserID (ToLower : String → String) (d : Driver) (role : Role)
    (heldAt : Option Nat) : (RoleAdd ToLower d role heldAt).1.lastUserID = d.lastUserID := by
  unfold RoleAdd
  dsimp only
  split <;> rfl

theorem RoleDelete_lastUserID (d : Driver) (roleID : Nat) :
    (RoleDelete d roleID).1.lastUserID = d.lastUserID := by
  unfold RoleDelete
  dsimp only
  split <;> rfl

theorem TorrentAdd_lastUserID (d : Driver) (t : Torrent) :
    (TorrentAdd d t).1.lastUserID = d.lastUserID := by
  unfold TorrentAdd
  split <;> rfl

theorem Op_apply_lastUserID (ToLower : String → String) (d : Driver) (op : Op) :
    (Op.apply ToLower d op).lastUserID =
      match op with
      | Op.userAdd _ => (d.lastUserID + 1) % 2 ^ 32
      | _ => d.lastUserID := by
  cases op with
  | userAdd usr => exact UserAdd_lastUserID d usr
  | userDelete usr => rfl
  | roleAdd role heldAt => exact RoleAdd_lastUserID ToLower d role heldAt
  | roleDelete roleID => exact RoleDelete_lastUserID d roleID
  | torrentAdd t => exact TorrentAdd_lastUserID d t
  | torrentDelete ih dropRow => rfl
  | whiteListAdd client => rfl
  | whiteListDelete client => rfl
  | close => rfl

theorem assignedIDs_above (ToLower : String → String) (ops : List Op) :
    ∀ d : Driver, d.lastUserID + userAdds ops < 2 ^ 32 →
      (∀ id ∈ assignedIDs ToLower d ops, d.lastUserID < id) ∧
      (assignedIDs ToLower d ops).Pairwise (fun a b => a < b) := by
  induction ops with
  | nil =>
    intro d _
    exact ⟨fun id h => absurd h (List.not_mem_nil id), List.Pairwise.nil⟩
  | cons op ops ih =>
    intro d hwrap
    by_cases hop : ∃ usr, op = Op.userAdd usr
    · obtain ⟨usr, rfl⟩ := hop
      have hw : d.lastUserID + 1 + userAdds ops < 2 ^ 32 := by
        simp only [userAdds] at hwrap
        omega
      have hlt : d.lastUserID + 1 < 2 ^ 32 := by omega
      have hnext : (Op.apply ToLower d (Op.userAdd usr)).lastUserID = d.lastUserID + 1 := by
        rw [Op_apply_lastUserID]
        exact Nat.mod_eq_of_lt hlt
      have hrest := ih (Op.apply ToLower d (Op.userAdd usr)) (by rw [hnext]; exact hw)
      rw [hnext] at hrest
      have hhead : ∀ id ∈ (Op.assigned d (Op.userAdd usr)).toList, id = d.lastUserID + 1 := by
        intro id hid
        have hdef : Op.assigned d (Op.userAdd usr) =
            if usr.UserID = 0 ∧ (UserAdd d usr).2.2 = none then
              some (UserAdd d usr).2.1.UserID
            else none := rfl
        rw [hdef] at hid
        by_cases hc : usr.UserID = 0 ∧ (UserAdd d usr).2.2 = none
        · rw [if_pos hc] at hid
          simp only [Option.toList, List.mem_singleton] at hid
          rw [hid, UserAdd_UserID, hc.1, Nat.zero_add, Nat.mod_mod]
          exact Nat.mod_eq_of_lt hlt
        · rw [if_neg hc] at hid
          cases hid
      constructor
      · intro id hid
        rcases List.mem_append.mp hid with h1 | h1
        · rw [hhead id h1]; omega
        · have := hrest.1 id h1
          omega
      · show ((Op.assigned d (Op.userAdd usr)).toList ++
            assignedIDs ToLower (Op.apply ToLower d (Op.userAdd usr)) ops).Pairwise (fun a b => a < b)
        rw [List.pairwise_append]
        refine ⟨?_, hrest.2, ?_⟩
        · cases Op.assigned d (Op.userAdd usr) <;> simp [Option.toList]
        · intro a ha b hb
          rw [hhead a ha]
          exact hrest.1 b hb
    · have hcount : userAdds (op :: ops) = userAdds ops := by
        cases op with
        | userAdd usr => exact absurd ⟨usr, rfl⟩ hop
        | _ => rfl
      have hnext : (Op.apply ToLower d op).lastUserID = d.lastUserID := by
        rw [Op_apply_lastUserID]
        cases op with
        | userAdd usr => exact absurd ⟨usr, rfl⟩ hop
        | _ => rfl
      have hnone : Op.assigned d op = none := by
        cases op with
        | userAdd usr => exact absurd ⟨usr, rfl⟩ hop
        | _ => rfl
      rw [hcount] at hwrap
      have hrest := ih (Op.apply ToLower d op) (by rw [hnext]; exact hwrap)
      rw [hnext] at hrest
      have hids : assignedIDs ToLower d (op :: ops) = assignedIDs ToLower (Op.apply ToLower d op) ops := by
        show (Op.assigned d op).toList ++ assignedIDs ToLower (Op.apply ToLower d op) ops = _
        rw [hnone]
        rfl
      rw [hids]
      exact hrest

/-- C14: for any sequence of calls on a driver along which the 32 bit user id counter does
not wrap, the ids assigned by the successful `UserAdd` calls to users whose `UserID` is 0 on
entry are strictly increasing in call order, each above the counter at the start; hence no id
is assigned twice, whatever `UserDelete` calls and failed adds lie in between. `ToLower` is
the lower-casing that the `RoleAdd` calls of the sequence use; it can be any function. -/
theorem assignedIDs_increasing (ToLower : String → String) (d : Driver) (ops : List Op)
    (hwrap : d.lastUserID + userAdds ops < 2 ^ 32) :
    (assignedIDs ToLower d ops).Pairwise (fun a b => a < b) ∧
    (assignedIDs ToLower d ops).Nodup ∧
    (∀ id ∈ assignedIDs ToLower d ops, d.lastUserID < id) := by
  have h := assignedIDs_above ToLower ops d hwrap
  refine ⟨h.2, ?_, h.1⟩
  exact h.2.imp (fun hab => Nat.ne_of_lt hab)

theorem assignedIDs_increasing_witness :
    demo.driver.lastUserID +
      userAdds [Op.userAdd demo.blankUser, Op.userDelete demo.blankUser,
        Op.userAdd demo.rivalUser, Op.userAdd { demo.blankUser with UserID := 4294967295 },
        Op.userAdd demo.goodUser, Op.close, Op.userAdd demo.blankUser] < 2 ^ 32 ∧
    (UserAdd (Op.apply demo.ToLower (Op.apply demo.ToLower (Op.apply demo.ToLower demo.driver (Op.userAdd demo.blankUser))
      (Op.userDelete demo.blankUser)) (Op.userAdd demo.rivalUser))
      { demo.blankUser with UserID := 4294967295 }).2.2 = some Error.ErrDuplicate ∧
    assignedIDs demo.ToLower demo.driver [Op.userAdd demo.blankUser, Op.userDelete demo.blankUser,
        Op.userAdd demo.rivalUser, Op.userAdd { demo.blankUser with UserID := 4294967295 },
        Op.userAdd demo.goodUser, Op.close, Op.userAdd demo.blankUser] = [9, 10, 13] ∧
    ((assignedIDs demo.ToLower demo.driver [Op.userAdd demo.blankUser, Op.userDelete demo.blankUser,
        Op.userAdd demo.rivalUser, Op.userAdd { demo.blankUser with UserID := 4294967295 },
        Op.userAdd demo.goodUser, Op.close, Op.userAdd demo.blankUser]).Pairwise
        (fun a b => a < b) ∧
     (assignedIDs demo.ToLower demo.driver [Op.userAdd demo.blankUser, Op.userDelete demo.blankUser,
        Op.userAdd demo.rivalUser, Op.userAdd { demo.blankUser with UserID := 4294967295 },
        Op.userAdd demo.goodUser, Op.close, Op.userAdd demo.blankUser]).Nodup ∧
     (∀ id ∈ assignedIDs demo.ToLower demo.driver [Op.userAdd demo.blankUser, Op.userDelete demo.blankUser,
        Op.userAdd demo.rivalUser, Op.userAdd { demo.blankUser with UserID := 4294967295 },
        Op.userAdd demo.goodUser, Op.close, Op.userAdd demo.blankUser],
        demo.driver.lastUserID < id)) :=
  ⟨by decide, by decide, by decide,
   assignedIDs_increasing demo.ToLower demo.driver
     [Op.userAdd demo.blankUser, Op.userDelete demo.blankUser,
      Op.userAdd demo.rivalUser, Op.userAdd { demo.blankUser with UserID := 4294967295 },
      Op.userAdd demo.goodUser, Op.close, Op.userAdd demo.blankUser] (by decide)⟩

end memory

/-! ## The error codec -/

namespace tracker

theorem responseError_encode (message : String) :
    (responseError message).encode =
      "d14:failure reason" ++ toString message.utf8ByteSize ++ ":" ++ message ++ "e" := by
  have hkey : bencodeString "failure reason" = "14:failure reason" := by decide
  have h0 : (responseError message).encode =
      "d" ++ ("" ++ (bencodeString "failure reason" ++
        (toString message.utf8ByteSize ++ ":" ++ message))) ++ "e" := rfl
  rw [h0, hkey]
  have hd : "d14:failure reason" = "d" ++ "14:failure reason" := by decide
  rw [hd]
  simp only [String.append_assoc, String.empty_append]

theorem oops_of_entry (code : errCode) (msg : String)
    (h : GoMap.get responseStringMap code = some msg) :
    oops code = { status := code, contentType := MIMEPlain, body := responseError msg } := by
  unfold oops
  simp only [h]

theorem oops_of_no_entry (code : errCode) (h : GoMap.get responseStringMap code = none) :
    oops code =
      { status := code, contentType := MIMEPlain, body := responseError "Generic error" } := by
  have hg : GoMap.get responseStringMap msgGenericError = some "Generic error" := by decide
  unfold oops
  simp only [h, hg, Option.getD_some]

/-- C19: for every error code that has an entry in `responseStringMap`, `oops` writes a
response whose status is the numeric value of the code and whose body is the dictionary with
the single key `failure reason` mapped to the table message of the code; its bencoding is
`d14:failure reason<len>:<message>e`, `<len>` being the decimal byte length of the message. -/
theorem oops_known_code (code : errCode) (msg : String)
    (h : GoMap.get responseStringMap code = some msg) :
    (oops code).status = code ∧
    (oops code).contentType = "text/plain" ∧
    (oops code).body = Body.dict [("failure reason", BValue.str msg)] ∧
    (oops code).body.encode =
      "d14:failure reason" ++ toString msg.utf8ByteSize ++ ":" ++ msg ++ "e" := by
  rw [oops_of_entry code msg h]
  exact ⟨rfl, rfl, rfl, responseError_encode msg⟩

theorem oops_known_code_witness :
    GoMap.get responseStringMap 490 = some "Invalid passkey" ∧
    "d14:failure reason" ++ toString "Invalid passkey".utf8ByteSize ++ ":" ++
      "Invalid passkey" ++ "e" = "d14:failure reason15:Invalid passkeye" ∧
    ((oops 490).status = 490 ∧
     (oops 490).contentType = "text/plain" ∧
     (oops 490).body = Body.dict [("failure reason", BValue.str "Invalid passkey")] ∧
     (oops 490).body.encode =
       "d14:failure reason" ++ toString "Invalid passkey".utf8ByteSize ++ ":" ++
         "Invalid passkey" ++ "e") :=
  ⟨by decide, by decide, oops_known_code 490 "Invalid passkey" (by decide)⟩

/-- C20: for every error code that has no entry in `responseStringMap`, `oops` writes, under
that code as status, the same body as for the generic error code 900: the dictionary
`{"failure reason": "Generic error"}`, bencoded `d14:failure reason13:Generic errore`. The
generic entry that the fallback reads is present in the table, so the message is never
missing. -/
theorem oops_unknown_code (code : errCode)
    (h : GoMap.get responseStringMap code = none) :
    (oops code).status = code ∧
    (oops code).body = Body.dict [("failure reason", BValue.str "Generic error")] ∧
    (oops code).body = (oops msgGenericError).body ∧
    (oops code).body.encode = "d14:failure reason13:Generic errore" ∧
    GoMap.get responseStringMap msgGenericError = some "Generic error" := by
  have h900 : (oops msgGenericError).body = responseError "Generic error" := by decide
  have henc : (responseError "Generic error").encode =
      "d14:failure reason13:Generic errore" := by decide
  rw [oops_of_no_entry code h, h900]
  exact ⟨rfl, rfl, rfl, henc, by decide⟩

theorem oops_unknown_code_witness :
    GoMap.get responseStringMap msgOk = none ∧
    GoMap.get responseStringMap (-3) = none ∧
    (oops (-3)).status = -3 ∧
    ((oops msgOk).status = msgOk ∧
     (oops msgOk).body = Body.dict [("failure reason", BValue.str "Generic error")] ∧
     (oops msgOk).body = (oops msgGenericError).body ∧
     (oops msgOk).body.encode = "d14:failure reason13:Generic errore" ∧
     GoMap.get responseStringMap msgGenericError = some "Generic error") :=
  ⟨by decide, by decide, (oops_unknown_code (-3) (by decide)).1,
   oops_unknown_code msgOk (by decide)⟩

end tracker

/-! ## The error table -/

namespace GoMap

variable {κ β : Type} [DecidableEq κ]

theorem get_isSome_iff_mem_keys (m : GoMap κ β) (k : κ) :
    (∃ v, get m k = some v) ↔ k ∈ keys m := by
  constructor
  · rintro ⟨v, hv⟩
    by_contra hk
    rw [get_eq_none_of_not_mem m hk] at hv
    cases hv
  · intro hk
    cases hg : get m k with
    | none => exact absurd hk (not_mem_of_get_eq_none m hg)
    | some v => exact ⟨v, rfl⟩

end GoMap

namespace tracker

open consts store

/-- C21, counterexample: `msgOk`, the declared constant 200, has no message in
`responseStringMap`. -/
theorem responseStringMap_lacks_msgOk :
    msgOk ∈ declaredCodes ∧ msgOk = 200 ∧ GoMap.get responseStringMap msgOk = none := by
  decide

/-- C21, amended: every errCode constant declared by the tracker other than `msgOk` (200),
that is 100, 101, 102, 103, 104, 150, 151, 152, 153, 480, 490, 500, 900, 901 and 902, has
exactly one literal message in `responseStringMap`, and the table has no entry for any other
code: it has no entry for 200 either. -/
theorem responseStringMap_closed :
    (∀ code : errCode, (∃ msg, GoMap.get responseStringMap code = some msg) ↔
      (code ∈ declaredCodes ∧ code ≠ msgOk)) ∧
    (GoMap.keys responseStringMap).Nodup ∧
    responseStringMap.length = 15 ∧
    declaredCodes = [100, 101, 102, 103, 104, 150, 151, 152, 153, 200, 480, 490, 500, 900,
      901, 902] := by
  refine ⟨?_, by decide, by decide, by decide⟩
  intro code
  rw [GoMap.get_isSome_iff_mem_keys]
  simp only [GoMap.keys, responseStringMap, declaredCodes, List.map_cons, List.map_nil,
    List.mem_cons, List.mem_nil_iff, or_false, msgInvalidReqType, msgMissingInfoHash,
    msgMissingPeerID, msgMissingPort, msgInvalidPort, msgInvalidInfoHash, msgInvalidPeerID,
    msgInvalidNumWant, msgBadClient, msgOk, msgInfoHashNotFound, msgInvalidAuth,
    msgClientRequestTooFast, msgGenericError, msgMalformedRequest, msgQueryParseFail]
  constructor
  · intro h
    refine ⟨?_, ?_⟩
    · rcases h with h | h | h | h | h | h | h | h | h | h | h | h | h | h | h <;> simp [h]
    · rcases h with h | h | h | h | h | h | h | h | h | h | h | h | h | h | h <;>
        rw [h] <;> decide
  · rintro ⟨h, hne⟩
    rcases h with h | h | h | h | h | h | h | h | h | h | h | h | h | h | h | h <;>
      first
        | exact absurd h hne
        | simp [h]

/-! ## The IP resolver -/

theorem getIP_scan_addr (net : Net) (httpAddr : String) (cs : List Char) :
    (getIP.scan net httpAddr cs).1 = net.ParseIP httpAddr ∨
    ((∀ ch ∈ cs, ch ≠ '.' ∧ ch ≠ ':') ∧ (getIP.scan net httpAddr cs).1 = []) := by
  induction cs with
  | nil => right; exact ⟨fun ch h => absurd h (List.not_mem_nil ch), rfl⟩
  | cons ch rest ih =>
    unfold getIP.scan
    by_cases h1 : ch = '.'
    · left; rw [if_pos h1]
    · by_cases h2 : ch = ':'
      · left; rw [if_neg h1, if_pos h2]
      · rw [if_neg h1, if_neg h2]
        rcases ih with ih | ih
        · left; exact ih
        · right
          refine ⟨?_, ih.2⟩
          intro x hx
          rcases List.mem_cons.mp hx with rfl | hx
          · exact ⟨h1, h2⟩
          · exact ih.1 x hx

theorem getIP_clientIP_eq (net : Net) (q : query) :
    getIP.clientIP net q
      [(0, announceParam.paramIP), (1, announceParam.paramIPv4), (2, announceParam.paramIPv6)] =
    match GoMap.get q.Params announceParam.paramIP with
    | some ipStr => some (net.ParseIP ipStr, false, none)
    | none =>
      match GoMap.get q.Params announceParam.paramIPv4 with
      | some ipStr => some (net.ParseIP ipStr, false, none)
      | none =>
        match GoMap.get q.Params announceParam.paramIPv6 with
        | some ipStr => some (net.ParseIP ipStr, true, none)
        | none => none := by
  unfold getIP.clientIP
  cases h0 : GoMap.get q.Params announceParam.paramIP with
  | some a => simp
  | none =>
    unfold getIP.clientIP
    cases h1 : GoMap.get q.Params announceParam.paramIPv4 with
    | some a => simp
    | none =>
      unfold getIP.clientIP
      cases h2 : GoMap.get q.Params announceParam.paramIPv6 with
      | some a => simp
      | none => simp [getIP.clientIP]

theorem getIP_headerIP_eq (net : Net) (c : Request) :
    getIP.headerIP net c ["X-Real-IP", "X-Forwarded-For"] =
    if c.HeaderGet "X-Real-IP" ≠ "" then
      some (net.ParseIP (c.HeaderGet "X-Real-IP"),
        decide (countColons (c.HeaderGet "X-Real-IP") > 1), none)
    else if c.HeaderGet "X-Forwarded-For" ≠ "" then
      some (net.ParseIP (c.HeaderGet "X-Forwarded-For"),
        decide (countColons (c.HeaderGet "X-Forwarded-For") > 1), none)
    else none := by
  unfold getIP.headerIP
  by_cases h1 : c.HeaderGet "X-Real-IP" ≠ ""
  · rw [if_pos h1, if_pos h1]
  · rw [if_neg h1, if_neg h1]
    unfold getIP.headerIP
    by_cases h2 : c.HeaderGet "X-Forwarded-For" ≠ ""
    · rw [if_pos h2, if_pos h2]
    · rw [if_neg h2, if_neg h2]
      rfl

/-- C22: `getIP` agrees with the first-match-wins reference `getIPReference`: it returns the
address of the reference in every case, and the IPv6 flag of the reference wherever the
reference fixes one (the query overrides); with overrides not allowed its whole result is
the same for every query. The standard parser is assumed to reject every string that has
neither a dot nor a colon. -/
theorem getIP_refines_reference (net : Net) (q : query) (allowClientIP : Bool) (c : Request)
    (hparse : ∀ s : String, (∀ ch ∈ s.data, ch ≠ '.' ∧ ch ≠ ':') → net.ParseIP s = []) :
    (getIP net q allowClientIP c).1 = (getIPReference net q allowClientIP c).1 ∧
    (∀ flag, (getIPReference net q allowClientIP c).2 = some flag →
      (getIP net q allowClientIP c).2.1 = flag) ∧
    (∀ q2 : query, getIP net q2 false c = getIP net q false c) := by
  have hrest : ∀ q0 : query,
      (match getIP.headerIP net c ["X-Real-IP", "X-Forwarded-For"] with
        | some r => r
        | none => getIP.scan net (net.SplitHostPort c.RemoteAddr)
            (net.SplitHostPort c.RemoteAddr).data).1 =
      (if c.HeaderGet "X-Real-IP" ≠ "" then
          ((net.ParseIP (c.HeaderGet "X-Real-IP"), none) : IP × Option Bool)
        else if c.HeaderGet "X-Forwarded-For" ≠ "" then
          (net.ParseIP (c.HeaderGet "X-Forwarded-For"), none)
        else (net.ParseIP (net.SplitHostPort c.RemoteAddr), none)).1 := by
    intro _
    rw [getIP_headerIP_eq]
    by_cases h1 : c.HeaderGet "X-Real-IP" ≠ ""
    · simp only [if_pos h1]
    · by_cases h2 : c.HeaderGet "X-Forwarded-For" ≠ ""
      · simp only [if_neg h1, if_pos h2]
      · simp only [if_neg h1, if_neg h2]
        rcases getIP_scan_addr net (net.SplitHostPort c.RemoteAddr)
          (net.SplitHostPort c.RemoteAddr).data with h | h
        · exact h
        · rw [h.2, hparse _ h.1]
  have hflag : ∀ flag,
      (if c.HeaderGet "X-Real-IP" ≠ "" then
          ((net.ParseIP (c.HeaderGet "X-Real-IP"), none) : IP × Option Bool)
        else if c.HeaderGet "X-Forwarded-For" ≠ "" then
          (net.ParseIP (c.HeaderGet "X-Forwarded-For"), none)
        else (net.ParseIP (net.SplitHostPort c.RemoteAddr), none)).2 ≠ some flag := by
    intro flag
    split_ifs <;> simp
  refine ⟨?_, ?_, fun q2 => rfl⟩
  · cases allowClientIP with
    | false =>
      unfold getIP getIPReference
      simpa using hrest q
    | true =>
      unfold getIP getIPReference
      simp only [if_true, true_and, getIP_clientIP_eq]
      cases h0 : GoMap.get q.Params announceParam.paramIP with
      | some a => simp
      | none =>
        cases h1 : GoMap.get q.Params announceParam.paramIPv4 with
        | some a => simp
        | none =>
          cases h2 : GoMap.get q.Params announceParam.paramIPv6 with
          | some a => simp
          | none => simpa using hrest q
  · intro flag hf
    cases allowClientIP with
    | false =>
      unfold getIPReference at hf
      simp only [Bool.false_eq_true, false_and, if_false] at hf
      exact absurd hf (hflag flag)
    | true =>
      unfold getIPReference at hf
      unfold getIP
      simp only [if_true, true_and, getIP_clientIP_eq] at hf ⊢
      cases h0 : GoMap.get q.Params announceParam.paramIP with
      | some a => simp [h0] at hf ⊢; exact hf
      | none =>
        cases h1 : GoMap.get q.Params announceParam.paramIPv4 with
        | some a => simp [h0, h1] at hf ⊢; exact hf
        | none =>
          cases h2 : GoMap.get q.Params announceParam.paramIPv6 with
          | some a => simp [h0, h1, h2] at hf ⊢; exact hf
          | none =>
            simp only [h0, h1, h2, Option.isSome_none, Bool.false_eq_true, if_false] at hf
            exact absurd hf (hflag flag)

theorem demo_net_rejects (s : String) (h : ∀ ch ∈ s.data, ch ≠ '.' ∧ ch ≠ ':') :
    demo.net.ParseIP s = [] := by
  have hany : s.data.any (fun ch => ch = '.' || ch = ':') = false := by
    rw [List.any_eq_false]
    intro x hx
    have := h x hx
    simp [this.1, this.2]
  show (if s.data.any (fun ch => ch = '.' || ch = ':') = true then _ else []) = []
  rw [hany]
  rfl

theorem getIP_refines_reference_witness :
    getIP demo.net demo.queryIP true demo.proxied = ([10, 0, 0, 1], false, none) ∧
    getIPReference demo.net demo.queryIP true demo.proxied = ([10, 0, 0, 1], some false) ∧
    getIP demo.net demo.queryPlain true demo.direct = ([10, 0, 0, 3], false, none) ∧
    ((getIP demo.net demo.queryIP true demo.proxied).1 =
       (getIPReference demo.net demo.queryIP true demo.proxied).1 ∧
     (∀ flag, (getIPReference demo.net demo.queryIP true demo.proxied).2 = some flag →
       (getIP demo.net demo.queryIP true demo.proxied).2.1 = flag) ∧
     (∀ q2 : query, getIP demo.net q2 false demo.proxied =
       getIP demo.net demo.queryIP false demo.proxied)) :=
  ⟨by decide, by decide, by decide,
   getIP_refines_reference demo.net demo.queryIP true demo.proxied demo_net_rejects⟩

/-- C23 (code defect): with client overrides allowed, a request that carries the header
`X-Real-IP: 10.0.0.2` and the query parameter `ip=10.0.0.1` is resolved to 10.0.0.1, the
address of the query parameter, not to the address of the header; only with overrides not
allowed does the header decide. -/
theorem getIP_override_beats_header :
    demo.proxied.HeaderGet "X-Real-IP" = "10.0.0.2" ∧
    GoMap.get demo.queryIP.Params announceParam.paramIP = some "10.0.0.1" ∧
    demo.net.ParseIP "10.0.0.2" = [10, 0, 0, 2] ∧
    getIP demo.net demo.queryIP true demo.proxied = ([10, 0, 0, 1], false, none) ∧
    getIP demo.net demo.queryIP false demo.proxied = ([10, 0, 0, 2], false, none) := by
  decide

/-- C24 (code defect): with client overrides allowed and the query parameter `ip=bogus`,
which is not an address, `getIP` returns no address and no error; the same holds for a proxy
header that is not an address. `ErrInvalidClient` is returned only when the remote host has
neither a dot nor a colon. -/
theorem getIP_unparsed_without_error :
    demo.net.ParseIP "bogus" = [] ∧
    getIP demo.net demo.queryBogus true demo.direct = ([], false, none) ∧
    getIP demo.net demo.queryPlain false
      { Header := [("X-Forwarded-For", "unknown, 10.0.0.1")], RemoteAddr := "10.0.0.3:51413" } =
      ([], false, none) ∧
    getIP demo.net demo.queryPlain false { Header := [], RemoteAddr := "localhost:80" } =
      ([], false, some Error.ErrInvalidClient) := by
  decide

end tracker

/-! ## The in-memory driver: batch sync -/

namespace memory

open consts store

/-- C25: for every driver state and every batch, `TorrentSync` and `UserSync` return no error
and leave the driver, with every stored torrent and user and both counters, exactly as it
was; so does applying the same batch any number of times. -/
theorem Sync_is_noop (d : Driver) (torrents : List Torrent) (users : List User) (n : Nat) :
    TorrentSync d torrents = (d, none) ∧
    UserSync d users = (d, none) ∧
    Nat.iterate (fun s => (TorrentSync s torrents).1) n d = d ∧
    Nat.iterate (fun s => (UserSync s users).1) n d = d := by
  refine ⟨rfl, rfl, ?_, ?_⟩
  · induction n with
    | zero => rfl
    | succ k ih => rw [Function.iterate_succ_apply]; exact ih
  · induction n with
    | zero => rfl
    | succ k ih => rw [Function.iterate_succ_apply]; exact ih

end memory

/-! ## util: durations and integers -/

namespace util

open consts

theorem unit_letter_not_digit (u : Char)
    (hu : u = 's' ∨ u = 'm' ∨ u = 'h' ∨ u = 'd' ∨ u = 'w' ∨ u = 'M' ∨ u = 'y') :
    u.isDigit = false := by
  rcases hu with h | h | h | h | h | h | h <;> rw [h] <;> decide

theorem unitNanos_some_iff (u : Char) :
    (∃ nanos, unitNanos u = some nanos) ↔
      (u = 's' ∨ u = 'm' ∨ u = 'h' ∨ u = 'd' ∨ u = 'w' ∨ u = 'M' ∨ u = 'y') := by
  unfold unitNanos
  constructor
  · rintro ⟨nanos, h⟩
    by_contra hn
    simp only [not_or] at hn
    simp [hn.1, hn.2.1, hn.2.2.1, hn.2.2.2.1, hn.2.2.2.2.1, hn.2.2.2.2.2.1,
      hn.2.2.2.2.2.2] at h
  · intro h
    split_ifs <;> first | exact ⟨_, rfl⟩ | skip
    rename_i h1 h2 h3 h4 h5 h6 h7
    rcases h with h | h | h | h | h | h | h <;> contradiction

theorem FindStringSubmatch_of_parts (digits : List Char) (u : Char) (hne : digits ≠ [])
    (hd : ∀ ch ∈ digits, ch.isDigit = true)
    (hu : u = 's' ∨ u = 'm' ∨ u = 'h' ∨ u = 'd' ∨ u = 'w' ∨ u = 'M' ∨ u = 'y') :
    reDuration.FindStringSubmatch (String.mk (digits ++ [u])) =
      some (String.mk digits, String.mk [u]) := by
  have hnd := unit_letter_not_digit u hu
  have htw : (digits ++ [u]).takeWhile Char.isDigit = digits := by
    rw [List.takeWhile_append_of_pos hd]
    simp [List.takeWhile, hnd]
  have hdw : (digits ++ [u]).dropWhile Char.isDigit = [u] := by
    rw [List.dropWhile_append_of_pos hd]
    simp [List.dropWhile, hnd]
  unfold reDuration.FindStringSubmatch
  simp only [htw, hdw]
  cases digits with
  | nil => exact absurd rfl hne
  | cons a rest => simp only [hu, if_true]

theorem FindStringSubmatch_some (s : String) (m : String × String)
    (h : reDuration.FindStringSubmatch s = some m) :
    ∃ (digits : List Char) (u : Char),
      s = String.mk (digits ++ [u]) ∧ digits ≠ [] ∧ (∀ ch ∈ digits, ch.isDigit = true) ∧
      (u = 's' ∨ u = 'm' ∨ u = 'h' ∨ u = 'd' ∨ u = 'w' ∨ u = 'M' ∨ u = 'y') ∧
      m = (String.mk digits, String.mk [u]) := by
  unfold reDuration.FindStringSubmatch at h
  have hsplit := List.takeWhile_append_dropWhile Char.isDigit s.data
  have hall : ∀ ch ∈ s.data.takeWhile Char.isDigit, ch.isDigit = true :=
    fun ch hch => List.mem_takeWhile_imp hch
  generalize s.data.takeWhile Char.isDigit = tw at h hsplit hall
  generalize s.data.dropWhile Char.isDigit = dw at h hsplit
  cases tw with
  | nil => simp at h
  | cons a rest =>
    cases dw with
    | nil => simp at h
    | cons u dw2 =>
      cases dw2 with
      | cons b dw3 => simp at h
      | nil =>
        by_cases hu : u = 's' ∨ u = 'm' ∨ u = 'h' ∨ u = 'd' ∨ u = 'w' ∨ u = 'M' ∨ u = 'y'
        · simp only [hu, if_true, Option.some.injEq] at h
          refine ⟨a :: rest, u, ?_, List.cons_ne_nil _ _, hall, hu, h.symm⟩
          show s = String.mk (a :: rest ++ [u])
          rw [hsplit]
        · simp only [hu, if_false] at h
          cases h

theorem ParseInt_digits (digits : List Char) (bitSize : Nat) (hne : digits ≠ [])
    (hd : ∀ ch ∈ digits, ch.isDigit = true) :
    strconv.ParseInt (String.mk digits) bitSize =
      if strconv.digitsValue digits < 2 ^ (bitSize - 1) then
        some (strconv.digitsValue digits : Int)
      else none := by
  cases digits with
  | nil => exact absurd rfl hne
  | cons a rest =>
    have ha : a.isDigit = true := hd a (List.mem_cons_self _ _)
    have h1 : a ≠ '+' := by
      intro h
      rw [h] at ha
      exact absurd ha (by decide)
    have h2 : a ≠ '-' := by
      intro h
      rw [h] at ha
      exact absurd ha (by decide)
    have hall : (a :: rest).all Char.isDigit = true := List.all_eq_true.mpr hd
    unfold strconv.ParseInt
    simp only [h1, h2, if_false, hall]
    simp

theorem wrapInt64_of_fits (x : Int) (h0 : 0 ≤ x) (h1 : x < 2 ^ 63) : wrapInt64 x = x := by
  unfold wrapInt64
  have h2 : (x + 2 ^ 63) % 2 ^ 64 = x + 2 ^ 63 := Int.emod_eq_of_lt (by omega) (by omega)
  rw [h2]
  omega

theorem ParseDuration_error_shape (s : String) (h : (ParseDuration s).2 ≠ none) :
    ParseDuration s = (0, some errInvalidDuration) := by
  unfold ParseDuration at h ⊢
  by_cases h0 : s = "0"
  · simp [h0] at h
  · simp only [h0, if_false] at h ⊢
    cases hm : reDuration.FindStringSubmatch s with
    | none => rfl
    | some m =>
      simp only [hm] at h ⊢
      cases hv : strconv.ParseInt m.1 64 with
      | none => rfl
      | some value =>
        simp only [hv] at h ⊢
        split_ifs at h ⊢ <;> first | rfl | exact absurd rfl h

theorem ParseDuration_of_parts (digits : List Char) (u : Char) (nanos : Int)
    (hne : digits ≠ []) (hd : ∀ ch ∈ digits, ch.isDigit = true)
    (hv : strconv.digitsValue digits < 2 ^ 63) (hn : unitNanos u = some nanos) :
    ParseDuration (String.mk (digits ++ [u])) =
      (wrapInt64 (nanos * (strconv.digitsValue digits : Int)), none) := by
  have hu := (unitNanos_some_iff u).mp ⟨nanos, hn⟩
  have h0 : String.mk (digits ++ [u]) ≠ "0" := by
    intro h
    have hdata : digits ++ [u] = ['0'] := congrArg String.data h
    have hlen := congrArg List.length hdata
    simp only [List.length_append, List.length_cons, List.length_nil] at hlen
    have : digits.length = 0 := by omega
    exact hne (List.length_eq_zero.mp this)
  have hpi : strconv.ParseInt (String.mk digits) 64 =
      some (strconv.digitsValue digits : Int) := by
    rw [ParseInt_digits digits 64 hne hd]
    exact if_pos hv
  unfold ParseDuration
  rw [if_neg h0, FindStringSubmatch_of_parts digits u hne hd hu]
  simp only [hpi]
  rcases hu with h | h | h | h | h | h | h <;> subst h
  · have : nanos = Second := by
      have h2 : unitNanos 's' = some Second := by decide
      rw [h2] at hn
      exact (Option.some.inj hn).symm
    rw [this]
    rfl
  · have : nanos = Minute := by
      have h2 : unitNanos 'm' = some Minute := by decide
      rw [h2] at hn
      exact (Option.some.inj hn).symm
    rw [this]
    rfl
  · have : nanos = Hour := by
      have h2 : unitNanos 'h' = some Hour := by decide
      rw [h2] at hn
      exact (Option.some.inj hn).symm
    rw [this]
    rfl
  · have : nanos = day := by
      have h2 : unitNanos 'd' = some day := by decide
      rw [h2] at hn
      exact (Option.some.inj hn).symm
    rw [this]
    rfl
  · have : nanos = day * 7 := by
      have h2 : unitNanos 'w' = some (day * 7) := by decide
      rw [h2] at hn
      exact (Option.some.inj hn).symm
    rw [this]
    rfl
  · have : nanos = day * 31 := by
      have h2 : unitNanos 'M' = some (day * 31) := by decide
      rw [h2] at hn
      exact (Option.some.inj hn).symm
    rw [this]
    rfl
  · have : nanos = day * 365 := by
      have h2 : unitNanos 'y' = some (day * 365) := by decide
      rw [h2] at hn
      exact (Option.some.inj hn).symm
    rw [this]
    rfl

theorem ParseDuration_ok_parts (s : String) (h0 : s ≠ "0") (h : (ParseDuration s).2 = none) :
    ∃ (digits : List Char) (u : Char) (nanos : Int),
      s = String.mk (digits ++ [u]) ∧ digits ≠ [] ∧ (∀ ch ∈ digits, ch.isDigit = true) ∧
      strconv.digitsValue digits < 2 ^ 63 ∧ unitNanos u = some nanos := by
  unfold ParseDuration at h
  rw [if_neg h0] at h
  cases hm : reDuration.FindStringSubmatch s with
  | none => simp [hm] at h
  | some m =>
    obtain ⟨digits, u, hs, hne, hd, hu, hmeq⟩ := FindStringSubmatch_some s m hm
    obtain ⟨nanos, hn⟩ := (unitNanos_some_iff u).mpr hu
    refine ⟨digits, u, nanos, hs, hne, hd, ?_, hn⟩
    by_contra hv
    have hpi : strconv.ParseInt m.1 64 = none := by
      rw [hmeq, ParseInt_digits digits 64 hne hd]
      exact if_neg hv
    simp [hm, hpi] at h

/-- C26: `ParseDuration(s)` succeeds exactly when `s` is "0" or consists of one or more ASCII
decimal digits, whose value fits in a signed 64 bit integer, followed by exactly one of the
unit letters s, m, h, d, w, M, y; "0" gives the duration 0; for digits of value n and a unit
of `nanos` nanoseconds it returns the product n times `nanos` reduced to 64 bits, which is the
product itself when that fits; for every other string it returns the duration 0 with the
invalid-duration error. -/
theorem ParseDuration_exactly (s : String) :
    ((ParseDuration s).2 = none ↔ DurationAccepted s) ∧
    (s = "0" → ParseDuration s = (0, none)) ∧
    (∀ (digits : List Char) (u : Char) (nanos : Int),
      s = String.mk (digits ++ [u]) → digits ≠ [] → (∀ ch ∈ digits, ch.isDigit = true) →
      strconv.digitsValue digits < 2 ^ 63 → unitNanos u = some nanos →
      ParseDuration s = (wrapInt64 ((strconv.digitsValue digits : Int) * nanos), none) ∧
      ((strconv.digitsValue digits : Int) * nanos < 2 ^ 63 →
        ParseDuration s = ((strconv.digitsValue digits : Int) * nanos, none))) ∧
    (¬ DurationAccepted s → ParseDuration s = (0, some errInvalidDuration)) := by
  have hzero : ParseDuration "0" = (0, none) := by decide
  have hiff : (ParseDuration s).2 = none ↔ DurationAccepted s := by
    constructor
    · intro h
      by_cases h0 : s = "0"
      · exact Or.inl h0
      · exact Or.inr (ParseDuration_ok_parts s h0 h)
    · intro h
      rcases h with h | ⟨digits, u, nanos, hs, hne, hd, hv, hn⟩
      · rw [h, hzero]
      · rw [hs, ParseDuration_of_parts digits u nanos hne hd hv hn]
  refine ⟨hiff, ?_, ?_, ?_⟩
  · intro h
    rw [h, hzero]
  · intro digits u nanos hs hne hd hv hn
    have hp := ParseDuration_of_parts digits u nanos hne hd hv hn
    rw [Int.mul_comm] at hp
    refine ⟨hs ▸ hp, ?_⟩
    intro hfit
    have hnn : 0 ≤ nanos := by
      have hu := (unitNanos_some_iff u).mp ⟨nanos, hn⟩
      rcases hu with h | h | h | h | h | h | h <;> subst h <;>
        (have h2 := hn; simp [unitNanos] at h2; omega)
    have hpos : 0 ≤ (strconv.digitsValue digits : Int) * nanos :=
      Int.mul_nonneg (Int.ofNat_nonneg _) hnn
    rw [hs, hp, wrapInt64_of_fits _ hpos hfit]
  · intro hna
    apply ParseDuration_error_shape
    intro h
    exact hna (hiff.mp h)

theorem ParseDuration_exactly_witness :
    ParseDuration "90m" = (5400000000000, none) ∧
    ParseDuration "2y" = (63072000000000000, none) ∧
    ParseDuration "0" = (0, none) ∧
    ParseDuration "5 s" = (0, some errInvalidDuration) ∧
    DurationAccepted "90m" ∧
    (ParseDuration "90m").2 = none ∧
    ParseDuration "90m" =
      ((strconv.digitsValue ['9', '0'] : Int) * 60000000000, none) :=
  ⟨by decide, by decide, by decide, by decide,
   (ParseDuration_exactly "90m").1.mp (by decide),
   (ParseDuration_exactly "90m").1.mpr
     (Or.inr ⟨['9', '0'], 'm', 60000000000, by decide, by decide, by decide, by decide,
       by decide⟩),
   ((ParseDuration_exactly "90m").2.2.1 ['9', '0'] 'm' 60000000000 (by decide) (by decide)
     (by decide) (by decide) (by decide)).2 (by decide)⟩

/-- C27 (code defect): the strings "300ms", "-1.5h", "2h45m", "1.5h", "+5s" and "1us", all
accepted by `time.ParseDuration`, are rejected by `ParseDuration` with the invalid-duration
error; only a single run of digits with one of its own unit letters is accepted, as "2h". -/
theorem ParseDuration_rejects_go_durations :
    ParseDuration "300ms" = (0, some errInvalidDuration) ∧
    ParseDuration "-1.5h" = (0, some errInvalidDuration) ∧
    ParseDuration "2h45m" = (0, some errInvalidDuration) ∧
    ParseDuration "1.5h" = (0, some errInvalidDuration) ∧
    ParseDuration "+5s" = (0, some errInvalidDuration) ∧
    ParseDuration "1us" = (0, some errInvalidDuration) ∧
    ParseDuration "2h" = (7200000000000, none) := by
  decide

/-- C28 (code defect): `StringToUInt16` parses with 32 bits and then keeps the low 16 bits, so
"70000" gives 4464 and "-1" gives 65535 instead of the default; the numerals of 0 to 65535
give their value and a string that is no integer gives the default. -/
theorem StringToUInt16_truncates :
    StringToUInt16 "70000" 9 = 4464 ∧
    StringToUInt16 "-1" 9 = 65535 ∧
    StringToUInt16 "65536" 9 = 0 ∧
    StringToUInt16 "65535" 9 = 65535 ∧
    StringToUInt16 "0" 9 = 0 ∧
    StringToUInt16 "abc" 9 = 9 ∧
    StringToUInt16 "2147483648" 9 = 9 := by
  decide

/-- C29 (code defect): `StringToUInt64` parses a signed 64 bit integer, so the numeral of
2^63, an unsigned 64 bit value, gives the default, as does the numeral of 2^64 - 1, while
"-1" gives 2^64 - 1; below 2^63 the numeral gives its value. -/
theorem StringToUInt64_signed_range :
    (9223372036854775808 : Nat) = 2 ^ 63 ∧
    StringToUInt64 "9223372036854775808" 7 = 7 ∧
    StringToUInt64 "18446744073709551615" 7 = 7 ∧
    StringToUInt64 "-1" 7 = 18446744073709551615 ∧
    StringToUInt64 "9223372036854775807" 7 = 9223372036854775807 := by
  decide

end util

/-! ## cmd: the role listing -/

namespace cmd

open store

/-- C30 (code defect): for the four roles of the store test, Admin 1, Moderator 5, Member 15
and Master 10, `renderRoles` shows the rows in the order Admin, Master, Member, Moderator,
that is 1, 10, 15, 5: the priority column is sorted as text, not as a number. For the three
roles Admin 1, Member 15, Master 10 the order shown is Admin, Master, Member. -/
theorem renderRoles_sorts_as_text :
    (renderRoles demo.testRoles).map (fun r => (r.name, r.priority)) =
      [("Admin", "1"), ("Master", "10"), ("Member", "15"), ("Moderator", "5")] ∧
    (renderRoles demo.scenarioRoles).map (fun r => r.name) = ["Admin", "Master", "Member"] ∧
    demo.testRoles.map (fun r => (r.RoleName, r.Priority)) =
      [("Admin", 1), ("Moderator", 5), ("Member", 15), ("Master", 10)] ∧
    ¬ (([1, 10, 15, 5] : List Int).Sorted (fun a b => a ≤ b)) := by
  decide

end cmd

/-! ## Durations that do not fit -/

namespace util

open consts

/-- C31 (code defect): "300y" is accepted without an error, yet the exact product
300 * 365 * 24 * 3600 * 10^9 = 9460800000000000000 exceeds 2^63 - 1 and the returned
duration is the wrapped value -8985944073709551616, a negative number; likewise
"9223372036854775807s" returns -1000000000. Small counts are returned exactly. -/
theorem ParseDuration_wraps :
    ParseDuration "300y" = (-8985944073709551616, none) ∧
    DurationAccepted "300y" ∧
    (strconv.digitsValue ['3', '0', '0'] : Int) * (365 * 24 * 3600 * 1000000000) =
      9460800000000000000 ∧
    unitNanos 'y' = some (365 * 24 * 3600 * 1000000000) ∧
    (9460800000000000000 : Int) > 2 ^ 63 - 1 ∧
    (ParseDuration "300y").1 < 0 ∧
    ParseDuration "9223372036854775807s" = (-1000000000, none) ∧
    ParseDuration "292y" = (9208512000000000000, none) :=
  ⟨by decide,
   Or.inr ⟨['3', '0', '0'], 'y', 365 * 24 * 3600 * 1000000000, by decide, by decide,
     by decide, by decide, by decide⟩,
   by decide, by decide, by decide, by decide, by decide, by decide⟩

end util

/-! ## Whitelist upsert -/

namespace GoMap

variable {κ β : Type} [DecidableEq κ]

theorem mem_delete_iff (m : GoMap κ β) (k : κ) (e : κ × β) :
    e ∈ delete m k ↔ e ∈ m ∧ e.1 ≠ k := by
  unfold delete
  rw [List.mem_filter]
  simp

theorem length_delete_of_mem (m : GoMap κ β) (k : κ) (hwf : WF m) (hk : k ∈ keys m) :
    (delete m k).length + 1 = m.length := by
  induction m with
  | nil => simp [keys] at hk
  | cons e m ih =>
    have hnd : e.1 ∉ keys m ∧ WF m := by
      unfold WF keys at hwf
      simp only [List.map_cons, List.nodup_cons] at hwf
      exact hwf
    by_cases he : e.1 = k
    · have hd : delete (e :: m) k = delete m k := by simp [delete, he]
      rw [hd, delete_of_not_mem m (he ▸ hnd.1)]
      rfl
    · have hd : delete (e :: m) k = e :: delete m k := by simp [delete, he]
      have hk2 : k ∈ keys m := by
        simp only [keys, List.map_cons, List.mem_cons] at hk
        rcases hk with hk | hk
        · exact absurd hk.symm he
        · exact hk
      rw [hd, List.length_cons, ih hnd.2 hk2, List.length_cons]

theorem WF_delete (m : GoMap κ β) (k : κ) (h : WF m) : WF (delete m k) := by
  unfold WF keys delete at *
  exact h.sublist ((List.filter_sublist _).map _)

theorem WF_set (m : GoMap κ β) (k : κ) (v : β) (h : WF m) : WF (set m k v) := by
  have h1 := not_mem_keys_delete m k
  have h2 := WF_delete m k h
  unfold WF keys set at *
  simp only [List.map_cons, List.nodup_cons]
  exact ⟨h1, h2⟩

end GoMap

namespace memory

open consts store

theorem WhiteList_keyed_upsert (d : Driver) (c : WhiteListClient)
    (hwf : GoMap.WF d.whitelist)
    (hinv : ∀ e ∈ d.whitelist, e.2.ClientPrefix = e.1)
    (hold : ∃ old ∈ (WhiteListGetAll d).1, old.ClientPrefix = c.ClientPrefix) :
    (WhiteListAdd d c).2 = none ∧
    (WhiteListGetAll (WhiteListAdd d c).1).1.length = (WhiteListGetAll d).1.length ∧
    GoMap.get (WhiteListAdd d c).1.whitelist c.ClientPrefix = some c ∧
    (∀ w ∈ (WhiteListGetAll (WhiteListAdd d c).1).1,
      w.ClientPrefix = c.ClientPrefix → w = c ∧ w.ClientName = c.ClientName) ∧
    (∀ p, p ≠ c.ClientPrefix →
      GoMap.get (WhiteListAdd d c).1.whitelist p = GoMap.get d.whitelist p) ∧
    (∀ w : WhiteListClient, w.ClientPrefix ≠ c.ClientPrefix →
      (w ∈ (WhiteListGetAll (WhiteListAdd d c).1).1 ↔ w ∈ (WhiteListGetAll d).1)) := by
  have hkey : c.ClientPrefix ∈ GoMap.keys d.whitelist := by
    obtain ⟨old, hmem, hp⟩ := hold
    obtain ⟨e, he, heq⟩ := List.mem_map.mp hmem
    have h1 : e.1 = c.ClientPrefix := by rw [← hinv e he, heq, hp]
    exact List.mem_map.mpr ⟨e, he, h1⟩
  have hafter : (WhiteListGetAll (WhiteListAdd d c).1).1 =
      c :: GoMap.values (GoMap.delete d.whitelist c.ClientPrefix) := rfl
  have hbefore : (WhiteListGetAll d).1 = GoMap.values d.whitelist := rfl
  have hmap : (WhiteListAdd d c).1.whitelist = GoMap.set d.whitelist c.ClientPrefix c := rfl
  refine ⟨rfl, ?_, ?_, ?_, ?_, ?_⟩
  · rw [hafter, hbefore]
    have hlen := GoMap.length_delete_of_mem d.whitelist c.ClientPrefix hwf hkey
    simp only [GoMap.values, List.length_cons, List.length_map]
    exact hlen
  · rw [hmap, GoMap.get_set_self]
  · intro w hw hp
    rw [hafter] at hw
    rcases List.mem_cons.mp hw with h | h
    · exact ⟨h, by rw [h]⟩
    · obtain ⟨e, he, heq⟩ := List.mem_map.mp h
      have h3 := (GoMap.mem_delete_iff _ _ _).mp he
      have h4 : e.1 = c.ClientPrefix := by rw [← hinv e h3.1, heq, hp]
      exact absurd h4 h3.2
  · intro p hp
    rw [hmap, GoMap.get_set_of_ne _ _ hp]
  · intro w hw
    rw [hafter, hbefore]
    constructor
    · intro h
      rcases List.mem_cons.mp h with h | h
      · rw [h] at hw
        exact absurd rfl hw
      · obtain ⟨e, he, heq⟩ := List.mem_map.mp h
        exact List.mem_map.mpr ⟨e, ((GoMap.mem_delete_iff _ _ _).mp he).1, heq⟩
    · intro h
      obtain ⟨e, he, heq⟩ := List.mem_map.mp h
      apply List.mem_cons_of_mem
      refine List.mem_map.mpr ⟨e, (GoMap.mem_delete_iff _ _ _).mpr ⟨he, ?_⟩, heq⟩
      rw [← hinv e he, heq]
      exact hw

theorem UserAdd_whitelist (d : Driver) (usr : User) :
    (UserAdd d usr).1.whitelist = d.whitelist := by
  unfold UserAdd
  dsimp only
  split <;> rfl

theorem RoleAdd_whitelist (ToLower : String → String) (d : Driver) (role : Role)
    (heldAt : Option Nat) : (RoleAdd ToLower d role heldAt).1.whitelist = d.whitelist := by
  unfold RoleAdd
  dsimp only
  split <;> rfl

theorem RoleDelete_whitelist (d : Driver) (roleID : Nat) :
    (RoleDelete d roleID).1.whitelist = d.whitelist := by
  unfold RoleDelete
  dsimp only
  split <;> rfl

theorem TorrentAdd_whitelist (d : Driver) (t : Torrent) :
    (TorrentAdd d t).1.whitelist = d.whitelist := by
  unfold TorrentAdd
  split <;> rfl

/-- Every call of the driver keeps the whitelist a map whose entries are stored under their
own prefix: the only writes are those of `WhiteListAdd` and `WhiteListDelete`. -/
theorem Op_apply_whitelist_keyed (ToLower : String → String) (d : Driver) (op : Op)
    (h : GoMap.WF d.whitelist ∧ ∀ e ∈ d.whitelist, e.2.ClientPrefix = e.1) :
    GoMap.WF (Op.apply ToLower d op).whitelist ∧
    ∀ e ∈ (Op.apply ToLower d op).whitelist, e.2.ClientPrefix = e.1 := by
  cases op with
  | userAdd usr =>
    show GoMap.WF (UserAdd d usr).1.whitelist ∧
      ∀ e ∈ (UserAdd d usr).1.whitelist, e.2.ClientPrefix = e.1
    rw [UserAdd_whitelist]
    exact h
  | userDelete usr => exact h
  | roleAdd role heldAt =>
    show GoMap.WF (RoleAdd ToLower d role heldAt).1.whitelist ∧
      ∀ e ∈ (RoleAdd ToLower d role heldAt).1.whitelist, e.2.ClientPrefix = e.1
    rw [RoleAdd_whitelist]
    exact h
  | roleDelete roleID =>
    show GoMap.WF (RoleDelete d roleID).1.whitelist ∧
      ∀ e ∈ (RoleDelete d roleID).1.whitelist, e.2.ClientPrefix = e.1
    rw [RoleDelete_whitelist]
    exact h
  | torrentAdd t =>
    show GoMap.WF (TorrentAdd d t).1.whitelist ∧
      ∀ e ∈ (TorrentAdd d t).1.whitelist, e.2.ClientPrefix = e.1
    rw [TorrentAdd_whitelist]
    exact h
  | torrentDelete ih dropRow => exact h
  | whiteListAdd client =>
    show GoMap.WF (GoMap.set d.whitelist client.ClientPrefix client) ∧
      ∀ e ∈ GoMap.set d.whitelist client.ClientPrefix client, e.2.ClientPrefix = e.1
    refine ⟨GoMap.WF_set _ _ _ h.1, ?_⟩
    intro e he
    rcases List.mem_cons.mp he with rfl | he
    · rfl
    · exact h.2 e ((GoMap.mem_delete_iff _ _ _).mp he).1
  | whiteListDelete client =>
    show GoMap.WF (GoMap.delete d.whitelist client.ClientPrefix) ∧
      ∀ e ∈ GoMap.delete d.whitelist client.ClientPrefix, e.2.ClientPrefix = e.1
    exact ⟨GoMap.WF_delete _ _ h.1, fun e he => h.2 e ((GoMap.mem_delete_iff _ _ _).mp he).1⟩
  | close => exact h

/-- In every state that a sequence of calls produces from `NewDriver`, the whitelist is a map
whose entries are stored under their own prefix. -/
theorem runOps_whitelist_keyed (ToLower : String → String) (ops : List Op) :
    GoMap.WF (runOps ToLower NewDriver ops).whitelist ∧
    ∀ e ∈ (runOps ToLower NewDriver ops).whitelist, e.2.ClientPrefix = e.1 := by
  have hgen : ∀ (l : List Op) (d : Driver),
      (GoMap.WF d.whitelist ∧ ∀ e ∈ d.whitelist, e.2.ClientPrefix = e.1) →
      GoMap.WF (runOps ToLower d l).whitelist ∧
      ∀ e ∈ (runOps ToLower d l).whitelist, e.2.ClientPrefix = e.1 := by
    intro l
    induction l with
    | nil => intro d h; exact h
    | cons op l ih =>
      intro d h
      exact ih (Op.apply ToLower d op) (Op_apply_whitelist_keyed ToLower d op h)
  exact hgen ops NewDriver ⟨List.nodup_nil, fun e he => absurd he (List.not_mem_nil e)⟩

/-- C17: in every state of the in-memory driver, that is every state that a sequence of calls
of its methods produces from `NewDriver`, and for every client c: after `WhiteListAdd(c)`,
`WhiteListGetAll` returns a collection that contains c; after a following `WhiteListDelete(c)`
it returns a collection with exactly one entry fewer, in which no entry has c's prefix, and
which is the earlier collection without c, every other entry unchanged. Neither call returns
an error. -/
theorem WhiteList_add_delete (ToLower : String → String) (ops : List Op)
    (c : WhiteListClient) :
    (WhiteListAdd (runOps ToLower NewDriver ops) c).2 = none ∧
    c ∈ (WhiteListGetAll (WhiteListAdd (runOps ToLower NewDriver ops) c).1).1 ∧
    (WhiteListDelete (WhiteListAdd (runOps ToLower NewDriver ops) c).1 c).2 = none ∧
    (WhiteListGetAll (WhiteListDelete
      (WhiteListAdd (runOps ToLower NewDriver ops) c).1 c).1).1.length + 1 =
      (WhiteListGetAll (WhiteListAdd (runOps ToLower NewDriver ops) c).1).1.length ∧
    (∀ w ∈ (WhiteListGetAll (WhiteListDelete
        (WhiteListAdd (runOps ToLower NewDriver ops) c).1 c).1).1,
      w.ClientPrefix ≠ c.ClientPrefix) ∧
    (WhiteListGetAll (WhiteListAdd (runOps ToLower NewDriver ops) c).1).1 =
      c :: (WhiteListGetAll (WhiteListDelete
        (WhiteListAdd (runOps ToLower NewDriver ops) c).1 c).1).1 :=
  WhiteList_keyed_add_then_delete (runOps ToLower NewDriver ops) c
    (runOps_whitelist_keyed ToLower ops).2

/-- C32: `WhiteListAdd` never returns an error, and in every state of the in-memory driver,
that is every state that a sequence of calls of its methods produces from `NewDriver`: when a
client with prefix p is already whitelisted, `WhiteListAdd` of a client with the same prefix p
leaves the number of whitelist entries unchanged and replaces the entry for p with the new
client, so that the only client returned with prefix p is the new one, display name included;
the entries with other prefixes are unchanged. -/
theorem WhiteListAdd_upsert (ToLower : String → String) (ops : List Op)
    (c : WhiteListClient) :
    (WhiteListAdd (runOps ToLower NewDriver ops) c).2 = none ∧
    ((∃ old ∈ (WhiteListGetAll (runOps ToLower NewDriver ops)).1,
        old.ClientPrefix = c.ClientPrefix) →
      (WhiteListGetAll (WhiteListAdd (runOps ToLower NewDriver ops) c).1).1.length =
        (WhiteListGetAll (runOps ToLower NewDriver ops)).1.length ∧
      GoMap.get (WhiteListAdd (runOps ToLower NewDriver ops) c).1.whitelist c.ClientPrefix =
        some c ∧
      (∀ w ∈ (WhiteListGetAll (WhiteListAdd (runOps ToLower NewDriver ops) c).1).1,
        w.ClientPrefix = c.ClientPrefix → w = c ∧ w.ClientName = c.ClientName) ∧
      (∀ p, p ≠ c.ClientPrefix →
        GoMap.get (WhiteListAdd (runOps ToLower NewDriver ops) c).1.whitelist p =
          GoMap.get (runOps ToLower NewDriver ops).whitelist p) ∧
      (∀ w : WhiteListClient, w.ClientPrefix ≠ c.ClientPrefix →
        (w ∈ (WhiteListGetAll (WhiteListAdd (runOps ToLower NewDriver ops) c).1).1 ↔
          w ∈ (WhiteListGetAll (runOps ToLower NewDriver ops)).1))) :=
  ⟨rfl, fun hold =>
    (WhiteList_keyed_upsert (runOps ToLower NewDriver ops) c
      (runOps_whitelist_keyed ToLower ops).1 (runOps_whitelist_keyed ToLower ops).2 hold).2⟩

theorem WhiteListAdd_upsert_witness :
    (WhiteListGetAll (runOps demo.ToLower NewDriver demo.whitelistCalls)).1 =
      [demo.clientUT, demo.clientQT] ∧
    (WhiteListGetAll (WhiteListAdd (runOps demo.ToLower NewDriver demo.whitelistCalls)
      demo.clientQT4).1).1 = [demo.clientQT4, demo.clientUT] ∧
    (WhiteListGetAll (WhiteListAdd (runOps demo.ToLower NewDriver demo.whitelistCalls)
      demo.clientQT4).1).1.length =
      (WhiteListGetAll (runOps demo.ToLower NewDriver demo.whitelistCalls)).1.length ∧
    (∀ w ∈ (WhiteListGetAll (WhiteListAdd (runOps demo.ToLower NewDriver demo.whitelistCalls)
        demo.clientQT4).1).1,
      w.ClientPrefix = demo.clientQT4.ClientPrefix →
        w = demo.clientQT4 ∧ w.ClientName = demo.clientQT4.ClientName) :=
  ⟨by decide, by decide,
   ((WhiteListAdd_upsert demo.ToLower demo.whitelistCalls demo.clientQT4).2
     (by decide)).1,
   ((WhiteListAdd_upsert demo.ToLower demo.whitelistCalls demo.clientQT4).2
     (by decide)).2.2.1⟩

end memory

end Mika
